import Mathlib

/-!
Verification of the collision-detection and movement-resolution core of a
TypeScript first-person 3D engine.  The definitions below are a shallow
embedding, over the real numbers, of the functions in
`src/engine/orientedBoundingBox.ts`, `src/engine/collision.ts` and
`src/engine/player.ts` (plus the AI-actor variant of the fan search in the
enemy module).  JavaScript doubles are modelled as real numbers; the
`Infinity` sentinel used for the minimum-penetration tracker is modelled as
`Option ℝ` with `none` standing for `Infinity`.
-/

noncomputable section

open Classical

/-- A 3-vector, mirroring `THREE.Vector3` as used by the engine. -/
structure Vec3 where
  x : ℝ
  y : ℝ
  z : ℝ
deriving DecidableEq

namespace Vec3

/-- Componentwise addition, as in `THREE.Vector3.add`. -/
def add (a b : Vec3) : Vec3 := ⟨a.x + b.x, a.y + b.y, a.z + b.z⟩

/-- Componentwise subtraction, as in `THREE.Vector3.sub` / `subVectors`. -/
def sub (a b : Vec3) : Vec3 := ⟨a.x - b.x, a.y - b.y, a.z - b.z⟩

/-- Scalar multiple, as in `THREE.Vector3.multiplyScalar`. -/
def smul (c : ℝ) (v : Vec3) : Vec3 := ⟨c * v.x, c * v.y, c * v.z⟩

/-- Componentwise negation. -/
def neg (v : Vec3) : Vec3 := ⟨-v.x, -v.y, -v.z⟩

/-- Dot product, as in `THREE.Vector3.dot`. -/
def dot (a b : Vec3) : ℝ := a.x * b.x + a.y * b.y + a.z * b.z

/-- Cross product, as in `THREE.Vector3.crossVectors`. -/
def cross (a b : Vec3) : Vec3 :=
  ⟨a.y * b.z - a.z * b.y, a.z * b.x - a.x * b.z, a.x * b.y - a.y * b.x⟩

/-- Squared length, as in `THREE.Vector3.lengthSq` and `distanceToSquared`. -/
def normSq (v : Vec3) : ℝ := v.x * v.x + v.y * v.y + v.z * v.z

/-- Length, as in `THREE.Vector3.length`. -/
def len (v : Vec3) : ℝ := Real.sqrt (normSq v)

/-- Squared distance between two points, as in `THREE.Vector3.distanceToSquared`. -/
def distSq (a b : Vec3) : ℝ := normSq (sub a b)

/-- Normalisation, as in `THREE.Vector3.normalize`: the vector is divided by
its length, except that a zero length is replaced by 1 (the `length() || 1`
guard in three.js), so the zero vector normalises to itself. -/
def normalize (v : Vec3) : Vec3 :=
  smul (1 / (if len v = 0 then 1 else len v)) v

instance : Add Vec3 := ⟨add⟩
instance : Sub Vec3 := ⟨sub⟩
instance : Neg Vec3 := ⟨neg⟩
instance : SMul ℝ Vec3 := ⟨smul⟩

theorem add_def (a b : Vec3) : a + b = ⟨a.x + b.x, a.y + b.y, a.z + b.z⟩ := rfl
theorem sub_def (a b : Vec3) : a - b = ⟨a.x - b.x, a.y - b.y, a.z - b.z⟩ := rfl
theorem smul_def (c : ℝ) (v : Vec3) : c • v = ⟨c * v.x, c * v.y, c * v.z⟩ := rfl
theorem neg_def (v : Vec3) : -v = ⟨-v.x, -v.y, -v.z⟩ := rfl

end Vec3

/-- An oriented bounding box (`OrientedBoundingBox` in
`src/engine/orientedBoundingBox.ts`): a center, three half-extents and the
three world-space axes.  In the source the axes are produced by rotating the
canonical basis by the stored quaternion (`computeAxes`); the embedding keeps
the resulting axes directly, and the claims that depend on the rotation being
a unit rotation carry explicit orthonormality hypotheses. -/
structure OrientedBoundingBox where
  center : Vec3
  halfSize : Vec3
  axes : Fin 3 → Vec3

namespace OrientedBoundingBox

/-- Component `i` of the half-extent vector (`halfSize.getComponent(i)`). -/
def halfComp (b : OrientedBoundingBox) : Fin 3 → ℝ := fun i =>
  match i with
  | 0 => b.halfSize.x
  | 1 => b.halfSize.y
  | 2 => b.halfSize.z

/-- `projectOntoAxis`: the interval (min, max) obtained by projecting the box
onto `axis`. -/
def projectOntoAxis (b : OrientedBoundingBox) (axis : Vec3) : ℝ × ℝ :=
  let centerProjection := Vec3.dot b.center axis
  let radius :=
    |Vec3.dot (b.axes 0) axis| * b.halfComp 0 +
    |Vec3.dot (b.axes 1) axis| * b.halfComp 1 +
    |Vec3.dot (b.axes 2) axis| * b.halfComp 2
  (centerProjection - radius, centerProjection + radius)

/-- `projectionsOverlap`: two projection intervals overlap. -/
def projectionsOverlap (p1 p2 : ℝ × ℝ) : Prop :=
  ¬(p1.2 < p2.1 ∨ p2.2 < p1.1)

/-- The nine candidate cross-product separating axes of `intersectsOBB`,
skipping near-parallel pairs (`lengthSq > 0.0001` guard) and normalising the
survivors, in the loop order of the source (`i` outer, `j` inner). -/
def crossAxes (a b : OrientedBoundingBox) : List Vec3 :=
  (List.finRange 3).flatMap fun i =>
    (List.finRange 3).filterMap fun j =>
      let crossAxis := Vec3.cross (a.axes i) (b.axes j)
      if Vec3.normSq crossAxis > 0.0001 then some (Vec3.normalize crossAxis) else none

/-- The full candidate separating-axis list of `intersectsOBB`: the six face
normals of both boxes followed by the edge-edge cross products. -/
def satAxes (a b : OrientedBoundingBox) : List Vec3 :=
  [a.axes 0, a.axes 1, a.axes 2, b.axes 0, b.axes 1, b.axes 2] ++ crossAxes a b

/-- `intersectsOBB`: the boxes intersect when no candidate axis separates
their projections.  (The source short-circuits on the first separating axis;
the returned boolean is the same.) -/
def intersectsOBB (a b : OrientedBoundingBox) : Prop :=
  ∀ axis ∈ satAxes a b, projectionsOverlap (a.projectOntoAxis axis) (b.projectOntoAxis axis)

/-- `closestPointToPoint`: clamp the point, written in the local frame of the
box, to the half-extents and map back to world space. -/
def closestPointToPoint (b : OrientedBoundingBox) (point : Vec3) : Vec3 :=
  let localPoint := point - b.center
  let clampedAt := fun (i : Fin 3) =>
    let projection := Vec3.dot localPoint (b.axes i)
    max (-(b.halfComp i)) (min projection (b.halfComp i))
  b.center +
    (clampedAt 0 • b.axes 0 + (clampedAt 1 • b.axes 1 + clampedAt 2 • b.axes 2))

/-- `intersectsSphere`: the squared distance from the sphere center to the
closest point of the box is at most the squared radius. -/
def intersectsSphere (b : OrientedBoundingBox) (center : Vec3) (radius : ℝ) : Prop :=
  Vec3.distSq (b.closestPointToPoint center) center ≤ radius * radius

/-- One entry of the face-exit table built by `getMinPenetrationVector`:
an axis index, the exit distance along it, and the sign of the direction. -/
structure DepthEntry where
  axis : Fin 3
  dist : ℝ
  dir : ℝ

/-- The six face-exit entries of `getMinPenetrationVector`, in source order:
for each axis the positive face first, then the negative face. -/
def depthEntries (b : OrientedBoundingBox) (point : Vec3) : List DepthEntry :=
  let localPoint := point - b.center
  let projAt := fun (i : Fin 3) => Vec3.dot localPoint (b.axes i)
  [⟨0, b.halfComp 0 - projAt 0, 1⟩, ⟨0, b.halfComp 0 + projAt 0, -1⟩,
   ⟨1, b.halfComp 1 - projAt 1, 1⟩, ⟨1, b.halfComp 1 + projAt 1, -1⟩,
   ⟨2, b.halfComp 2 - projAt 2, 1⟩, ⟨2, b.halfComp 2 + projAt 2, -1⟩]

/-- `getMinPenetrationVector`: stable-sort the face-exit table by exit
distance (the JavaScript `sort` with comparator `a.dist - b.dist` is stable,
so exact ties keep the build order: axis index ascending, positive sign
first) and return the signed axis of the first entry. -/
def getMinPenetrationVector (b : OrientedBoundingBox) (point : Vec3) : Vec3 :=
  let depths := depthEntries b point
  let sorted := List.insertionSort (fun (p q : DepthEntry) => p.dist ≤ q.dist) depths
  let minPen := sorted.headD ⟨0, 0, 1⟩
  minPen.dir • b.axes minPen.axis

/-- The per-box collision record of `sphereCollisionInfo`. -/
structure SphereHit where
  collision : Bool
  penetration : Option Vec3

/-- `sphereCollisionInfo`: no collision when the distance from the closest
point to the sphere center exceeds the radius; otherwise the penetration is
the minimum-face-exit direction when the center is effectively inside the box
(distance below `0.0001`), or the normalised closest-point-to-center
direction, scaled in both cases by `(radius - distance) + 0.01`. -/
def sphereCollisionInfo (b : OrientedBoundingBox) (center : Vec3) (radius : ℝ) : SphereHit :=
  let closestPoint := b.closestPointToPoint center
  let toSphere := center - closestPoint
  let distance := Vec3.len toSphere
  if distance ≤ radius then
    let penetrationDepth := radius - distance
    if distance < 0.0001 then
      { collision := true
        penetration := some ((penetrationDepth + 0.01) • b.getMinPenetrationVector center) }
    else
      { collision := true
        penetration := some ((penetrationDepth + 0.01) • Vec3.normalize toSphere) }
  else
    { collision := false, penetration := none }

end OrientedBoundingBox

/-- A registered obstacle of the collision system (`Collidable` in
`src/engine/collision.ts`).  Identity of the JavaScript object reference is
modelled by a numeric tag, used by the `ignoreObject` self-collision check;
`obb` is what `getOrientedBoundingBox()` returns for it. -/
structure Collidable where
  id : ℕ
  obb : OrientedBoundingBox

namespace CollisionSystem

open OrientedBoundingBox

/-- `CollisionSystem.checkCollision`: true on the first registered obstacle
(excluding `ignoreObject` by identity) whose box intersects the query
sphere. -/
def checkCollision (cs : List Collidable) (position : Vec3) (radius : ℝ)
    (ignoreObject : Option ℕ) : Bool :=
  cs.any fun c =>
    !(ignoreObject == some c.id) && decide (intersectsSphere c.obb position radius)

/-- The result record of `CollisionSystem.getCollisionInfo`. -/
structure CollisionResult where
  collision : Bool
  penetration : Option Vec3
  collidable : Option ℕ

/-- One iteration of the `getCollisionInfo` scan.  The second component of
the accumulator is the tracked `minPenetrationDepth`, with `none` standing
for the initial `Infinity` (every real number compares below it). -/
def giStep (position : Vec3) (radius : ℝ) (ignoreObject : Option ℕ)
    (acc : CollisionResult × Option ℝ) (c : Collidable) : CollisionResult × Option ℝ :=
  if ignoreObject == some c.id then acc
  else
    let info := sphereCollisionInfo c.obb position radius
    match info.penetration with
    | some p =>
      if info.collision = true then
        let penetrationDepth := Vec3.len p
        match acc.2 with
        | none =>
          (⟨true, some p, some c.id⟩, some penetrationDepth)
        | some m =>
          if penetrationDepth < m then
            (⟨true, some p, some c.id⟩, some penetrationDepth)
          else
            ({ acc.1 with collision := true }, acc.2)
      else acc
    | none => acc

/-- `CollisionSystem.getCollisionInfo`: scan the whole registry, keeping the
contact whose penetration depth wins the `penetrationDepth <
minPenetrationDepth` comparison of the source. -/
def getCollisionInfo (cs : List Collidable) (position : Vec3) (radius : ℝ)
    (ignoreObject : Option ℕ) : CollisionResult :=
  (cs.foldl (giStep position radius ignoreObject) (⟨false, none, none⟩, none)).1

/-- The result record of `CollisionSystem.checkGroundCollision`. -/
structure GroundResult where
  collision : Bool
  groundY : Option ℝ
  normal : Option Vec3
  collidable : Option ℕ

/-- The initial (all-empty) ground result. -/
def emptyGroundResult : GroundResult := ⟨false, none, none, none⟩

/-- Center of the test sphere at step `i` of the downward scan:
`rayStart - (0, i * stepSize, 0)`. -/
def sampleCenter (rayStart : Vec3) (stepSize : ℝ) (i : ℕ) : Vec3 :=
  ⟨rayStart.x, rayStart.y - i * stepSize, rayStart.z⟩

/-- The data recorded by `checkGroundCollision` when the test sphere at step
`i` hits obstacle `cid`: the obstacle tag, the sample height
(`testSphere.center.y`) and the normalised penetration normal.  `none` when
the sample does not collide. -/
def sampleHit (obb : OrientedBoundingBox) (cid : ℕ) (rayStart : Vec3)
    (stepSize radius : ℝ) (i : ℕ) : Option (ℕ × ℝ × Vec3) :=
  let c := sampleCenter rayStart stepSize i
  let info := sphereCollisionInfo obb c radius
  match info.penetration with
  | some p => if info.collision = true then some (cid, c.y, Vec3.normalize p) else none
  | none => none

/-- The `GroundResult` assembled from a recorded hit:
`groundY = testSphere.center.y + testSphere.radius`. -/
def toGroundResult (radius : ℝ) (h : ℕ × ℝ × Vec3) : GroundResult :=
  ⟨true, some (h.2.1 + radius), some h.2.2, some h.1⟩

/-- A left fold that an iteration can stop early (`Sum.inr` is the early
`return result` of the source, `Sum.inl` continues the loop). -/
def foldlStop {α β : Type} (f : β → α → β ⊕ β) : β → List α → β ⊕ β
  | b, [] => .inl b
  | b, a :: l =>
    match f b a with
    | .inl bc => foldlStop f bc l
    | .inr bs => .inr bs

/-- One step of the inner sample loop of `checkGroundCollision`: on a hit the
result record is overwritten; when the recorded normal points mostly upward
(`normal.y > 0.7`) the whole function returns early, otherwise the scan
continues (a wall-like contact stays recorded in the result). -/
def groundSampleStep (obb : OrientedBoundingBox) (cid : ℕ) (rayStart : Vec3)
    (stepSize radius : ℝ) (res : GroundResult) (i : ℕ) : GroundResult ⊕ GroundResult :=
  match sampleHit obb cid rayStart stepSize radius i with
  | some h =>
    if h.2.2.y > 0.7 then .inr (toGroundResult radius h)
    else .inl (toGroundResult radius h)
  | none => .inl res

/-- The inner loop of `checkGroundCollision` over one obstacle: steps
`i = 0, 1, ..., 10` (`for (let i = 0; i <= steps; i++)` with `steps = 10`). -/
def scanObstacle (obb : OrientedBoundingBox) (cid : ℕ) (rayStart : Vec3)
    (stepSize radius : ℝ) (res : GroundResult) : GroundResult ⊕ GroundResult :=
  foldlStop (groundSampleStep obb cid rayStart stepSize radius) res (List.range (10 + 1))

/-- `CollisionSystem.checkGroundCollision`: scan every obstacle (skipping
`ignoreObject`), sampling sphere positions stepped downward by
`height / 10`; an early return propagates out of both loops. -/
def checkGroundCollision (cs : List Collidable) (position : Vec3)
    (radius height : ℝ) (ignoreObject : Option ℕ) : GroundResult :=
  let stepSize := height / 10
  let outcome :=
    foldlStop
      (fun res c =>
        if ignoreObject == some c.id then .inl res
        else scanObstacle c.obb c.id position stepSize radius res)
      emptyGroundResult cs
  match outcome with
  | .inl res => res
  | .inr res => res

/-- Every hit the ground scan can record, in scan order (obstacles in
registry order, samples by increasing depth inside each obstacle).  This is
the ordering the specification of the ground probe talks about. -/
def groundHits (cs : List Collidable) (position : Vec3) (radius height : ℝ)
    (ignoreObject : Option ℕ) : List (ℕ × ℝ × Vec3) :=
  let stepSize := height / 10
  (cs.filter fun c => !(ignoreObject == some c.id)).flatMap fun c =>
    (List.range (10 + 1)).filterMap (sampleHit c.obb c.id position stepSize radius)

/-- The behaviour of the ground probe stated in specification terms (used to
compare `checkGroundCollision` against the amended claim): the first
floor-like hit (normal vertical component above `0.7`) in scan order wins and
is reported with `groundY` equal to its sample height plus the radius;
otherwise the last recorded wall-like hit is reported; otherwise no ground. -/
def groundScanSpec (cs : List Collidable) (position : Vec3) (radius height : ℝ)
    (ignoreObject : Option ℕ) : GroundResult :=
  let hits := groundHits cs position radius height ignoreObject
  match hits.find? (fun h => decide (h.2.2.y > 0.7)) with
  | some h => toGroundResult radius h
  | none =>
    match hits.getLast? with
    | some h => toGroundResult radius h
    | none => emptyGroundResult

/-- Proof-side combinator: the outcome of scanning an ordered hit list with
incoming result `res` (early stop at the first floor-like hit, otherwise the
last hit, otherwise `res`).  Both loops of `checkGroundCollision` are proved
equal to it. -/
def scanOutcome (radius : ℝ) (hits : List (ℕ × ℝ × Vec3)) (res : GroundResult) :
    GroundResult ⊕ GroundResult :=
  match hits.find? (fun h => decide (h.2.2.y > 0.7)) with
  | some h => .inr (toGroundResult radius h)
  | none =>
    match hits.getLast? with
    | some h => .inl (toGroundResult radius h)
    | none => .inl res

end CollisionSystem

namespace Player

open CollisionSystem

/-- The number of fan-search directions of the player resolver
(`const angleCount = 16` in `findBestSlidingDirection` of
`src/engine/player.ts`). -/
def angleCount : ℕ := 16

/-- Candidate direction `i` of the player fan search: the desired direction
rotated by `-90° + i * (180° / (angleCount - 1))` in the horizontal plane and
rescaled to the move speed (`rotatedDir` in the source). -/
def fanRotatedDir (moveVector : Vec3) (speed : ℝ) (i : ℕ) : Vec3 :=
  let moveDir := Vec3.normalize moveVector
  let angle := -(Real.pi / 2) + i * (Real.pi / ((angleCount : ℝ) - 1))
  speed •
    (⟨moveDir.x * Real.cos angle - moveDir.z * Real.sin angle, 0,
      moveDir.x * Real.sin angle + moveDir.z * Real.cos angle⟩ : Vec3)

/-- Candidate position `i` of the player fan search (`testPos` in the
source: only the x and z coordinates move). -/
def fanTestPos (startPos moveVector : Vec3) (speed : ℝ) (i : ℕ) : Vec3 :=
  let rotatedDir := fanRotatedDir moveVector speed i
  ⟨startPos.x + rotatedDir.x, startPos.y, startPos.z + rotatedDir.z⟩

/-- One iteration of the player fan search.  `check` is the collision query
the source performs through `collisionSystem.checkCollision` at the fixed
player radius; the accumulator carries `bestDistance` and `bestPosition`. -/
def fanStep (check : Vec3 → Bool) (startPos moveVector : Vec3) (speed : ℝ)
    (acc : ℝ × Vec3) (i : ℕ) : ℝ × Vec3 :=
  let testPos := fanTestPos startPos moveVector speed i
  if check testPos then acc
  else
    let rotatedDir := fanRotatedDir moveVector speed i
    let dotWithOriginal := Vec3.dot rotatedDir moveVector / Vec3.len moveVector
    let effectiveDistance := Vec3.len rotatedDir * max 0 dotWithOriginal
    if effectiveDistance > acc.1 then (effectiveDistance, testPos) else acc

/-- `Player.findBestSlidingDirection` (`src/engine/player.ts`): scan the
16-direction fan, score collision-free candidates by length times the
clamped dot product with the desired displacement, and move (x and z only)
to the best candidate when its score is positive; otherwise the position is
left untouched. -/
def findBestSlidingDirection (startPos moveVector : Vec3) (speed : ℝ)
    (check : Vec3 → Bool) : Vec3 :=
  let best := (List.range angleCount).foldl (fanStep check startPos moveVector speed) (0, startPos)
  if best.1 > 0 then ⟨best.2.x, startPos.y, best.2.z⟩ else startPos

/-- `Player.tryStepUp`: from a grounded actor, test the new position raised
by the step height; when that raised position is collision-free and a ground
probe of depth `maxStepHeight + 0.1` below it finds ground whose height
(plus the standing offset) differs from the current height by an amount in
`(0, maxStepHeight]`, the timed climb starts; the returned value is the
climb target passed to `startStepClimbing`, `none` when no climb starts. -/
def tryStepUp (cs : List Collidable) (radius maxStepHeight standingHeight : ℝ)
    (isOnGround : Bool) (originalPosition newPosition : Vec3) : Option Vec3 :=
  if isOnGround = false then none
  else
    let stepTestPosition : Vec3 := ⟨newPosition.x, newPosition.y + maxStepHeight, newPosition.z⟩
    if checkCollision cs stepTestPosition radius none = true then none
    else
      let groundCheck := checkGroundCollision cs stepTestPosition radius (maxStepHeight + 0.1) none
      if groundCheck.collision = true then
        match groundCheck.groundY with
        | some gy =>
          let groundHeight := gy + standingHeight
          let heightDifference := groundHeight - originalPosition.y
          if 0 < heightDifference ∧ heightDifference ≤ maxStepHeight then
            some ⟨newPosition.x, groundHeight, newPosition.z⟩
          else none
        | none => none
      else none

/-- Outcome of one horizontal movement resolution: the resulting position
and, when a step climb was armed this tick, the climb target. -/
structure MoveOutcome where
  position : Vec3
  climbTarget : Option Vec3

/-- The horizontal movement resolution of `Player.update`
(`src/engine/player.ts`), from the input-direction length check onward:
direct move, then step-up, then wall-plane sliding (projected displacement
rescaled when longer than the speed), then the angular fan search.  The
camera-yaw rotation `rotY` turns the input direction into the world-space
move vector exactly as the source does; only x and z of the position ever
change, and an armed climb leaves the position untouched this tick. -/
def resolveMovement (cs : List Collidable) (radius speed maxStepHeight standingHeight : ℝ)
    (isOnGround : Bool) (pos direction : Vec3) (rotY : ℝ) : MoveOutcome :=
  if Vec3.len direction = 0 then ⟨pos, none⟩
  else
    let dn := Vec3.normalize direction
    let moveVector : Vec3 :=
      speed •
        (⟨dn.x * Real.cos rotY + dn.z * Real.sin rotY, 0,
          dn.z * Real.cos rotY - dn.x * Real.sin rotY⟩ : Vec3)
    let newPosition : Vec3 := ⟨pos.x + moveVector.x, pos.y, pos.z + moveVector.z⟩
    let collisionInfo := getCollisionInfo cs newPosition radius none
    if collisionInfo.collision = false then ⟨newPosition, none⟩
    else
      match tryStepUp cs radius maxStepHeight standingHeight isOnGround pos newPosition with
      | some target => ⟨pos, some target⟩
      | none =>
        let fanResult :=
          findBestSlidingDirection pos moveVector speed
            (fun q => checkCollision cs q radius none)
        match collisionInfo.penetration, collisionInfo.collidable with
        | some p, some _ =>
          let wallNormal := Vec3.normalize p
          let d := Vec3.dot moveVector wallNormal
          let projectedMove := moveVector - d • wallNormal
          if Vec3.len projectedMove > 0 then
            let pm :=
              if Vec3.len projectedMove > speed then
                speed • Vec3.normalize projectedMove
              else projectedMove
            let slidingPosition : Vec3 := ⟨pos.x + pm.x, pos.y, pos.z + pm.z⟩
            if checkCollision cs slidingPosition radius none = false then
              ⟨slidingPosition, none⟩
            else ⟨fanResult, none⟩
          else ⟨fanResult, none⟩
        | _, _ => ⟨fanResult, none⟩

end Player

namespace Enemy

/-- The number of fan-search directions of the AI-actor resolver
(`const angleCount = 8` in `findBestSlidingDirection` of the enemy
module). -/
def angleCount : ℕ := 8

/-- Candidate direction `i` of the enemy fan search; the enemy code rescales
by `moveVector.length()` where the player code uses its speed field. -/
def fanRotatedDir (moveVector : Vec3) (i : ℕ) : Vec3 :=
  let moveDir := Vec3.normalize moveVector
  let angle := -(Real.pi / 2) + i * (Real.pi / ((angleCount : ℝ) - 1))
  Vec3.len moveVector •
    (⟨moveDir.x * Real.cos angle - moveDir.z * Real.sin angle, 0,
      moveDir.x * Real.sin angle + moveDir.z * Real.cos angle⟩ : Vec3)

/-- Candidate position `i` of the enemy fan search (`testPos = startPos +
rotatedDir`, all three coordinates). -/
def fanTestPos (startPos moveVector : Vec3) (i : ℕ) : Vec3 :=
  startPos + fanRotatedDir moveVector i

/-- One iteration of the enemy fan search. -/
def fanStep (check : Vec3 → Bool) (startPos moveVector : Vec3)
    (acc : ℝ × Vec3) (i : ℕ) : ℝ × Vec3 :=
  let testPos := fanTestPos startPos moveVector i
  if check testPos then acc
  else
    let rotatedDir := fanRotatedDir moveVector i
    let dotWithOriginal := Vec3.dot rotatedDir moveVector / Vec3.len moveVector
    let effectiveDistance := Vec3.len rotatedDir * max 0 dotWithOriginal
    if effectiveDistance > acc.1 then (effectiveDistance, testPos) else acc

/-- `Enemy.findBestSlidingDirection` (enemy module): as the player version
but with an 8-direction fan and a whole-vector position write. -/
def findBestSlidingDirection (startPos moveVector : Vec3)
    (check : Vec3 → Bool) : Vec3 :=
  let best := (List.range angleCount).foldl (fanStep check startPos moveVector) (0, startPos)
  if best.1 > 0 then best.2 else startPos

end Enemy

/-- The world axes of an axis-aligned box (identity rotation in
`computeAxes`). -/
def stdAxes : Fin 3 → Vec3 := fun i =>
  match i with
  | 0 => ⟨1, 0, 0⟩
  | 1 => ⟨0, 1, 0⟩
  | 2 => ⟨0, 0, 1⟩

/-- Corner scenario, first obstacle: a unit-half-extent box whose face at
`x = 2` is grazed by the query sphere (penetration depth 0.11). -/
def cornerBoxA : Collidable := ⟨0, ⟨⟨3, 0, 0⟩, ⟨1, 1, 1⟩, stdAxes⟩⟩

/-- Corner scenario, second obstacle: a box whose top face at `y = -0.3` is
penetrated more deeply (penetration depth 0.21) by the same sphere. -/
def cornerBoxB : Collidable := ⟨1, ⟨⟨1.6, -1.3, 0⟩, ⟨1, 1, 1⟩, stdAxes⟩⟩

/-- A tall box whose face at `x = 1` acts as a vertical wall beside the
whole ground-probe path used in the claim about wall-like contacts. -/
def tallWall : Collidable := ⟨0, ⟨⟨2, 0, 0⟩, ⟨1, 10, 1⟩, stdAxes⟩⟩

/-- The unit axis-aligned box centered at the origin. -/
def unitBox : OrientedBoundingBox := ⟨⟨0, 0, 0⟩, ⟨1, 1, 1⟩, stdAxes⟩

/-- A box whose top face at `y = 2.12` is found by the step-up ground probe
of the step-climb witness scenario. -/
def stepBox : Collidable := ⟨0, ⟨⟨2, 1.12, 0⟩, ⟨1, 1, 1⟩, stdAxes⟩⟩

/-- A box large enough to contain every candidate position of the fan
searches started at the origin, so every candidate collides. -/
def bigBox : Collidable := ⟨0, ⟨⟨0, 0, 0⟩, ⟨100, 100, 100⟩, stdAxes⟩⟩

/-- The single collision-free position used to compare the two fan searches:
candidate 1 of the 16-direction player fan (an angle not sampled by the
8-direction enemy fan). -/
def fanFreeSpot : Vec3 := Player.fanTestPos ⟨0, 0, 0⟩ ⟨0.2, 0, 0⟩ 0.2 1

/-- A collision field that is free exactly at `fanFreeSpot` and blocked
everywhere else. -/
def fanBlockCheck : Vec3 → Bool := fun p => decide (p ≠ fanFreeSpot)

end

namespace Vec3

theorem normSq_nonneg (v : Vec3) : 0 ≤ normSq v := by
  have hx := mul_self_nonneg v.x
  have hy := mul_self_nonneg v.y
  have hz := mul_self_nonneg v.z
  unfold normSq
  linarith

theorem len_nonneg (v : Vec3) : 0 ≤ len v := Real.sqrt_nonneg _

theorem len_eq_of (q : ℝ) {v : Vec3} (hq : 0 ≤ q) (h : normSq v = q * q) :
    len v = q := by
  rw [len, h, Real.sqrt_mul_self hq]

theorem len_le_iff {v : Vec3} {r : ℝ} (hr : 0 ≤ r) :
    len v ≤ r ↔ normSq v ≤ r * r := by
  constructor
  · intro h
    have h2 : len v * len v ≤ r * r :=
      mul_le_mul h h (len_nonneg v) hr
    have h3 : len v * len v = normSq v := Real.mul_self_sqrt (normSq_nonneg v)
    linarith
  · intro h
    have h2 : len v ≤ Real.sqrt (r * r) := Real.sqrt_le_sqrt h
    rwa [Real.sqrt_mul_self hr] at h2

theorem normSq_sub_comm (a b : Vec3) : normSq (sub a b) = normSq (sub b a) := by
  simp only [sub, normSq]
  ring

theorem len_mk_zero : len ⟨0, 0, 0⟩ = 0 := by
  have : normSq ⟨0, 0, 0⟩ = (0 : ℝ) * 0 := by simp [normSq]
  rw [len_eq_of 0 le_rfl this]

theorem normalize_eq_of (q : ℝ) {v : Vec3} (hq : 0 < q) (h : normSq v = q * q) :
    normalize v = (1 / q) • v := by
  have hl : len v = q := len_eq_of q hq.le h
  rw [normalize, hl, if_neg hq.ne']
  rfl

theorem len_smul (c : ℝ) (v : Vec3) : len (c • v) = |c| * len v := by
  have h : normSq (smul c v) = c ^ 2 * normSq v := by
    simp only [smul, normSq]
    ring
  have : (c • v) = smul c v := rfl
  rw [len, this, h, Real.sqrt_mul (sq_nonneg c), Real.sqrt_sq_eq_abs, len]

theorem normSq_neg_eq (v : Vec3) : normSq (neg v) = normSq v := by
  simp only [neg, normSq]
  ring

theorem len_neg_eq (v : Vec3) : len (neg v) = len v := by
  rw [len, normSq_neg_eq, len]

theorem smul_neg_eq (c : ℝ) (v : Vec3) : smul c (neg v) = neg (smul c v) := by
  simp only [smul, neg, Vec3.mk.injEq]
  refine ⟨by ring, by ring, by ring⟩

theorem normalize_neg_eq (v : Vec3) : normalize (neg v) = neg (normalize v) := by
  rw [normalize, normalize, len_neg_eq]
  exact smul_neg_eq _ v

end Vec3

namespace OrientedBoundingBox

/-- Let-free restatement of `sphereCollisionInfo`, used to drive case
splits. -/
theorem sci_eq (b : OrientedBoundingBox) (c : Vec3) (r : ℝ) :
    sphereCollisionInfo b c r =
      if Vec3.len (c - b.closestPointToPoint c) ≤ r then
        if Vec3.len (c - b.closestPointToPoint c) < 0.0001 then
          { collision := true
            penetration :=
              some ((r - Vec3.len (c - b.closestPointToPoint c) + 0.01) •
                b.getMinPenetrationVector c) }
        else
          { collision := true
            penetration :=
              some ((r - Vec3.len (c - b.closestPointToPoint c) + 0.01) •
                Vec3.normalize (c - b.closestPointToPoint c)) }
      else { collision := false, penetration := none } := rfl

/-- The collision flag of `sphereCollisionInfo` is exactly the
distance-at-most-radius test of the source. -/
theorem sci_collision_iff (b : OrientedBoundingBox) (c : Vec3) (r : ℝ) :
    (sphereCollisionInfo b c r).collision = true ↔
      Vec3.len (c - b.closestPointToPoint c) ≤ r := by
  rw [sci_eq]
  split_ifs with h1 h2 <;> simp [h1]

/-- A penetration vector is recorded if and only if the collision flag is
set (the per-box half of the result invariant). -/
theorem sci_pen_iff (b : OrientedBoundingBox) (c : Vec3) (r : ℝ) :
    (sphereCollisionInfo b c r).penetration ≠ none ↔
      (sphereCollisionInfo b c r).collision = true := by
  rw [sci_eq]
  split_ifs with h1 h2 <;> simp

/-- The fast test and the detailed test agree on every box for a
non-negative radius, including the boundary case distance = radius. -/
theorem intersectsSphere_iff_sci (b : OrientedBoundingBox) (c : Vec3) {r : ℝ}
    (hr : 0 ≤ r) :
    intersectsSphere b c r ↔ (sphereCollisionInfo b c r).collision = true := by
  rw [sci_collision_iff, Vec3.len_le_iff hr]
  unfold intersectsSphere Vec3.distSq
  rw [Vec3.normSq_sub_comm]
  exact Iff.rfl

end OrientedBoundingBox

namespace CollisionSystem

open OrientedBoundingBox

/-- Effect of one `getCollisionInfo` iteration on the collision flag. -/
theorem giStep_collision_iff (p : Vec3) (r : ℝ) (ig : Option ℕ)
    (acc : CollisionResult × Option ℝ) (c : Collidable) :
    (giStep p r ig acc c).1.collision = true ↔
      acc.1.collision = true ∨
        ((ig == some c.id) = false ∧ (sphereCollisionInfo c.obb p r).collision = true) := by
  unfold giStep
  cases hig : (ig == some c.id) with
  | true => simp [hig]
  | false =>
    cases hpen : (sphereCollisionInfo c.obb p r).penetration with
    | none =>
      have hcol : (sphereCollisionInfo c.obb p r).collision ≠ true := by
        intro hc
        exact ((sci_pen_iff c.obb p r).2 hc) hpen
      simp [hig, hpen, hcol]
    | some pv =>
      cases hcol : (sphereCollisionInfo c.obb p r).collision with
      | true =>
        cases hacc : acc.2 with
        | none => simp [hig, hpen, hcol, hacc]
        | some m =>
          by_cases hlt : Vec3.len pv < m
          · simp [hig, hpen, hcol, hacc, hlt]
          · simp [hig, hpen, hcol, hacc, hlt]
      | false => simp [hig, hpen, hcol]

/-- The collision flag after folding the whole registry. -/
theorem gi_fold_collision_iff (p : Vec3) (r : ℝ) (ig : Option ℕ) :
    ∀ (cs : List Collidable) (acc : CollisionResult × Option ℝ),
      ((cs.foldl (giStep p r ig) acc).1.collision = true ↔
        acc.1.collision = true ∨
          ∃ c ∈ cs, (ig == some c.id) = false ∧
            (sphereCollisionInfo c.obb p r).collision = true) := by
  intro cs
  induction cs with
  | nil => intro acc; simp
  | cons c cs ih =>
    intro acc
    rw [List.foldl_cons, ih (giStep p r ig acc c), giStep_collision_iff]
    constructor
    · rintro ((h | h) | ⟨d, hd, h⟩)
      · exact Or.inl h
      · exact Or.inr ⟨c, List.mem_cons_self c cs, h⟩
      · exact Or.inr ⟨d, List.mem_cons_of_mem c hd, h⟩
    · rintro (h | ⟨d, hd, h⟩)
      · exact Or.inl (Or.inl h)
      · rcases List.mem_cons.1 hd with rfl | hmem
        · exact Or.inl (Or.inr h)
        · exact Or.inr ⟨d, hmem, h⟩

/-- One `getCollisionInfo` iteration preserves the result invariant:
the collision flag is set exactly when a penetration is recorded, and a
penetration is recorded exactly when the depth tracker left `Infinity`. -/
theorem giStep_inv (p : Vec3) (r : ℝ) (ig : Option ℕ)
    (acc : CollisionResult × Option ℝ) (c : Collidable)
    (h : (acc.1.collision = true ↔ acc.1.penetration ≠ none) ∧
      (acc.1.penetration ≠ none ↔ acc.2 ≠ none)) :
    ((giStep p r ig acc c).1.collision = true ↔
      (giStep p r ig acc c).1.penetration ≠ none) ∧
      ((giStep p r ig acc c).1.penetration ≠ none ↔ (giStep p r ig acc c).2 ≠ none) := by
  unfold giStep
  cases hig : (ig == some c.id) with
  | true => simpa [hig] using h
  | false =>
    cases hpen : (sphereCollisionInfo c.obb p r).penetration with
    | none => simpa [hig, hpen] using h
    | some pv =>
      cases hcol : (sphereCollisionInfo c.obb p r).collision with
      | false => simpa [hig, hpen, hcol] using h
      | true =>
        cases hacc : acc.2 with
        | none => simp [hig, hpen, hcol, hacc]
        | some m =>
          by_cases hlt : Vec3.len pv < m
          · simp [hig, hpen, hcol, hacc, hlt]
          · have hpe : acc.1.penetration ≠ none := h.2.2 (by simp [hacc])
            simp [hig, hpen, hcol, hacc, hlt, hpe]

/-- The result invariant after folding the whole registry. -/
theorem gi_fold_inv (p : Vec3) (r : ℝ) (ig : Option ℕ) :
    ∀ (cs : List Collidable) (acc : CollisionResult × Option ℝ),
      ((acc.1.collision = true ↔ acc.1.penetration ≠ none) ∧
        (acc.1.penetration ≠ none ↔ acc.2 ≠ none)) →
      (((cs.foldl (giStep p r ig) acc).1.collision = true ↔
        (cs.foldl (giStep p r ig) acc).1.penetration ≠ none) ∧
        ((cs.foldl (giStep p r ig) acc).1.penetration ≠ none ↔
          (cs.foldl (giStep p r ig) acc).2 ≠ none)) := by
  intro cs
  induction cs with
  | nil => intro acc h; simpa using h
  | cons c cs ih =>
    intro acc h
    rw [List.foldl_cons]
    exact ih _ (giStep_inv p r ig acc c h)

/-- `checkCollision` is an existential over the registry. -/
theorem checkCollision_iff (cs : List Collidable) (p : Vec3) (r : ℝ)
    (ig : Option ℕ) :
    checkCollision cs p r ig = true ↔
      ∃ c ∈ cs, (ig == some c.id) = false ∧ intersectsSphere c.obb p r := by
  simp [checkCollision, List.any_eq_true, Bool.and_eq_true, Bool.not_eq_true',
    decide_eq_true_eq]

end CollisionSystem

/-- C4: for every registry, position, radius and ignore argument the result
of `getCollisionInfo` records a penetration vector if and only if its
collision flag is set, and the same holds for each per-box
`sphereCollisionInfo` result. -/
theorem collision_result_invariant (cs : List Collidable) (pos : Vec3) (r : ℝ)
    (ig : Option ℕ) :
    ((CollisionSystem.getCollisionInfo cs pos r ig).collision = true ↔
      (CollisionSystem.getCollisionInfo cs pos r ig).penetration ≠ none) ∧
    ∀ b : OrientedBoundingBox,
      ((OrientedBoundingBox.sphereCollisionInfo b pos r).collision = true ↔
        (OrientedBoundingBox.sphereCollisionInfo b pos r).penetration ≠ none) := by
  constructor
  · exact (CollisionSystem.gi_fold_inv pos r ig cs (⟨false, none, none⟩, none)
      (by simp)).1
  · intro b
    exact (OrientedBoundingBox.sci_pen_iff b pos r).symm

/-- C10: for a non-negative radius (the input contract of the engine), the
boolean query `checkCollision` answers true exactly when `getCollisionInfo`
reports a collision, because the fast per-box test `intersectsSphere`
(squared distance against squared radius) agrees with the detailed per-box
test `sphereCollisionInfo` (distance against radius) on every obstacle,
including the boundary case distance = radius. -/
theorem checkCollision_agrees_getCollisionInfo (cs : List Collidable)
    (pos : Vec3) (r : ℝ) (ig : Option ℕ) (hr : 0 ≤ r) :
    (CollisionSystem.checkCollision cs pos r ig = true ↔
      (CollisionSystem.getCollisionInfo cs pos r ig).collision = true) ∧
    ∀ b : OrientedBoundingBox,
      (OrientedBoundingBox.intersectsSphere b pos r ↔
        (OrientedBoundingBox.sphereCollisionInfo b pos r).collision = true) := by
  constructor
  · rw [CollisionSystem.checkCollision_iff, CollisionSystem.getCollisionInfo,
      CollisionSystem.gi_fold_collision_iff]
    simp only [show (⟨⟨false, none, none⟩, none⟩ :
      CollisionSystem.CollisionResult × Option ℝ).1.collision = false from rfl,
      Bool.false_eq_true, false_or]
    constructor
    · rintro ⟨c, hc, hig, hint⟩
      exact ⟨c, hc, hig, (OrientedBoundingBox.intersectsSphere_iff_sci c.obb pos hr).1 hint⟩
    · rintro ⟨c, hc, hig, hint⟩
      exact ⟨c, hc, hig, (OrientedBoundingBox.intersectsSphere_iff_sci c.obb pos hr).2 hint⟩
  · intro b
    exact OrientedBoundingBox.intersectsSphere_iff_sci b pos hr

/-- Witness for C10 at a concrete registry, position and radius. -/
theorem checkCollision_agrees_getCollisionInfo_witness :
    CollisionSystem.checkCollision [bigBox] ⟨0, 0, 0⟩ 0.5 none = true ↔
      (CollisionSystem.getCollisionInfo [bigBox] ⟨0, 0, 0⟩ 0.5 none).collision = true :=
  (checkCollision_agrees_getCollisionInfo [bigBox] ⟨0, 0, 0⟩ 0.5 none
    (by norm_num)).1

namespace Vec3

theorem dot_neg_right (v w : Vec3) : dot v (neg w) = -(dot v w) := by
  simp only [dot, neg]
  ring

theorem cross_antisymm (v w : Vec3) : cross v w = neg (cross w v) := by
  simp only [cross, neg, Vec3.mk.injEq]
  refine ⟨by ring, by ring, by ring⟩

end Vec3

namespace OrientedBoundingBox

theorem projectionsOverlap_comm {p q : ℝ × ℝ} :
    projectionsOverlap p q ↔ projectionsOverlap q p := by
  unfold projectionsOverlap
  tauto

/-- Projecting onto the opposite axis mirrors the interval. -/
theorem projectOntoAxis_neg (b : OrientedBoundingBox) (ax : Vec3) :
    projectOntoAxis b (Vec3.neg ax) =
      (-(projectOntoAxis b ax).2, -(projectOntoAxis b ax).1) := by
  unfold projectOntoAxis
  simp only [Vec3.dot_neg_right, abs_neg, Prod.mk.injEq]
  constructor <;> ring

/-- The overlap verdict is the same on an axis and on its opposite. -/
theorem projectionsOverlap_neg (a b : OrientedBoundingBox) (ax : Vec3) :
    projectionsOverlap (projectOntoAxis a (Vec3.neg ax)) (projectOntoAxis b (Vec3.neg ax)) ↔
      projectionsOverlap (projectOntoAxis a ax) (projectOntoAxis b ax) := by
  rw [projectOntoAxis_neg a ax, projectOntoAxis_neg b ax]
  unfold projectionsOverlap
  dsimp only
  rw [neg_lt_neg_iff, neg_lt_neg_iff]
  tauto

/-- A cross-product axis of the swapped test is the negation of a
cross-product axis of the original test. -/
theorem crossAxes_mem_neg {a b : OrientedBoundingBox} {ax : Vec3}
    (h : ax ∈ crossAxes b a) : Vec3.neg ax ∈ crossAxes a b := by
  unfold crossAxes at h ⊢
  simp only [List.mem_flatMap, List.mem_filterMap] at h ⊢
  obtain ⟨i, hi, j, hj, hfj⟩ := h
  refine ⟨j, hj, i, hi, ?_⟩
  by_cases hcond : Vec3.normSq (Vec3.cross (b.axes i) (a.axes j)) > 0.0001
  · rw [if_pos hcond] at hfj
    have hax : ax = Vec3.normalize (Vec3.cross (b.axes i) (a.axes j)) :=
      (Option.some.injEq _ _ ▸ hfj).symm
    have hflip : Vec3.cross (a.axes j) (b.axes i) =
        Vec3.neg (Vec3.cross (b.axes i) (a.axes j)) := Vec3.cross_antisymm _ _
    have hcond2 : Vec3.normSq (Vec3.cross (a.axes j) (b.axes i)) > 0.0001 := by
      rwa [hflip, Vec3.normSq_neg_eq]
    rw [if_pos hcond2, hflip, Vec3.normalize_neg_eq, hax]
  · rw [if_neg hcond] at hfj
    exact absurd hfj (by simp)

/-- One direction of the symmetry of the separating-axis test. -/
theorem intersectsOBB_of (a b : OrientedBoundingBox) (h : intersectsOBB a b) :
    intersectsOBB b a := by
  intro ax hax
  unfold satAxes at hax
  simp only [List.mem_append, List.mem_cons, List.not_mem_nil, or_false] at hax
  rcases hax with hface | hcross
  · have hmem : ax ∈ satAxes a b := by
      unfold satAxes
      simp only [List.mem_append, List.mem_cons, List.not_mem_nil, or_false]
      tauto
    exact projectionsOverlap_comm.1 (h ax hmem)
  · have hmem : Vec3.neg ax ∈ satAxes a b := by
      unfold satAxes
      simp only [List.mem_append]
      exact Or.inr (crossAxes_mem_neg hcross)
    have h2 := h (Vec3.neg ax) hmem
    rw [projectionsOverlap_neg] at h2
    exact projectionsOverlap_comm.1 h2

end OrientedBoundingBox

/-- C6: the box-box separating-axis test is symmetric: `A.intersectsOBB B`
holds exactly when `B.intersectsOBB A`, although the two calls enumerate the
candidate axes in different orders and with opposite-sign cross products.
(No orthonormality of the axes is even needed.) -/
theorem intersectsOBB_symm (a b : OrientedBoundingBox) :
    OrientedBoundingBox.intersectsOBB a b ↔ OrientedBoundingBox.intersectsOBB b a :=
  ⟨OrientedBoundingBox.intersectsOBB_of a b, OrientedBoundingBox.intersectsOBB_of b a⟩

namespace CollisionSystem

theorem getLast?_cons_eq {α : Type} (a : α) (l : List α) :
    (a :: l).getLast? =
      match l.getLast? with
      | some b => some b
      | none => some a := by
  induction l generalizing a with
  | nil => rfl
  | cons b t ih =>
    cases h : t.getLast? <;>
      simp [List.getLast?_cons_cons, ih b, h]

theorem getLast?_append_eq {α : Type} (l1 l2 : List α) :
    (l1 ++ l2).getLast? =
      match l2.getLast? with
      | some b => some b
      | none => l1.getLast? := by
  induction l1 with
  | nil =>
    cases h : l2.getLast? <;> simp [h]
  | cons a t ih =>
    rw [List.cons_append, getLast?_cons_eq, ih, getLast?_cons_eq]
    cases h2 : l2.getLast? <;> cases ht : t.getLast? <;> simp

end CollisionSystem

namespace CollisionSystem

theorem foldlStop_cons {α β : Type} (f : β → α → β ⊕ β) (b : β) (a : α) (l : List α) :
    foldlStop f b (a :: l) =
      match f b a with
      | .inl bc => foldlStop f bc l
      | .inr bs => .inr bs := rfl

theorem scanOutcome_nil (radius : ℝ) (res : GroundResult) :
    scanOutcome radius [] res = .inl res := rfl

theorem scanOutcome_cons (radius : ℝ) (h : ℕ × ℝ × Vec3)
    (hits : List (ℕ × ℝ × Vec3)) (res : GroundResult) :
    scanOutcome radius (h :: hits) res =
      if h.2.2.y > 0.7 then .inr (toGroundResult radius h)
      else scanOutcome radius hits (toGroundResult radius h) := by
  by_cases hf : h.2.2.y > 0.7
  · rw [if_pos hf]
    unfold scanOutcome
    simp only [List.find?_cons, decide_eq_true hf]
  · rw [if_neg hf]
    unfold scanOutcome
    simp only [List.find?_cons, decide_eq_false hf]
    rw [getLast?_cons_eq]
    cases hfind : hits.find? (fun x => decide (x.2.2.y > 0.7)) with
    | some h2 => rfl
    | none =>
      cases hlast : hits.getLast? with
      | some hl => rfl
      | none => rfl

theorem scanOutcome_append (radius : ℝ) (l1 l2 : List (ℕ × ℝ × Vec3))
    (res : GroundResult) :
    scanOutcome radius (l1 ++ l2) res =
      match scanOutcome radius l1 res with
      | .inr x => .inr x
      | .inl res2 => scanOutcome radius l2 res2 := by
  unfold scanOutcome
  rw [List.find?_append, getLast?_append_eq]
  cases hfind : l1.find? (fun h => decide (h.2.2.y > 0.7)) with
  | some h => rfl
  | none =>
    rw [Option.none_or]
    cases hfind2 : l2.find? (fun h => decide (h.2.2.y > 0.7)) with
    | some h =>
      cases hlast1 : l1.getLast? with
      | some hl => rfl
      | none => rfl
    | none =>
      cases hlast2 : l2.getLast? with
      | some h =>
        cases hlast1 : l1.getLast? with
        | some hl => rfl
        | none => rfl
      | none =>
        cases hlast1 : l1.getLast? with
        | some h => rfl
        | none => rfl

/-- Characterisation of the inner sample loop: scanning the samples of one
obstacle behaves like `scanOutcome` on the hits that the samples produce. -/
theorem scan_samples_eq (obb : OrientedBoundingBox) (cid : ℕ) (rayStart : Vec3)
    (stepSize radius : ℝ) (L : List ℕ) :
    ∀ res : GroundResult,
      foldlStop (groundSampleStep obb cid rayStart stepSize radius) res L =
        scanOutcome radius
          (L.filterMap (sampleHit obb cid rayStart stepSize radius)) res := by
  induction L with
  | nil => intro res; rfl
  | cons i L ih =>
    intro res
    rw [foldlStop_cons]
    cases hs : sampleHit obb cid rayStart stepSize radius i with
    | none =>
      have hstep : groundSampleStep obb cid rayStart stepSize radius res i = .inl res := by
        unfold groundSampleStep
        rw [hs]
      rw [hstep, List.filterMap_cons_none hs]
      exact ih res
    | some h =>
      rw [List.filterMap_cons_some hs, scanOutcome_cons]
      by_cases hf : h.2.2.y > 0.7
      · have hstep : groundSampleStep obb cid rayStart stepSize radius res i =
            .inr (toGroundResult radius h) := by
          unfold groundSampleStep
          rw [hs]
          exact if_pos hf
        rw [hstep, if_pos hf]
      · have hstep : groundSampleStep obb cid rayStart stepSize radius res i =
            .inl (toGroundResult radius h) := by
          unfold groundSampleStep
          rw [hs]
          exact if_neg hf
        rw [hstep, if_neg hf]
        exact ih (toGroundResult radius h)

/-- Characterisation of the outer obstacle loop of `checkGroundCollision`:
it behaves like `scanOutcome` on the concatenated, registry-ordered hit
list. -/
theorem scan_obstacles_eq (position : Vec3) (stepSize radius : ℝ) (ig : Option ℕ)
    (cs : List Collidable) :
    ∀ res : GroundResult,
      foldlStop
        (fun res c =>
          if ig == some c.id then .inl res
          else scanObstacle c.obb c.id position stepSize radius res)
        res cs =
        scanOutcome radius
          ((cs.filter fun c => !(ig == some c.id)).flatMap fun c =>
            (List.range (10 + 1)).filterMap
              (sampleHit c.obb c.id position stepSize radius)) res := by
  induction cs with
  | nil => intro res; rfl
  | cons c cs ih =>
    intro res
    rw [foldlStop_cons]
    cases hig : (ig == some c.id) with
    | true =>
      rw [if_pos (by simp [hig]), List.filter_cons_of_neg (by simp [hig])]
      exact ih res
    | false =>
      rw [if_neg (by simp [hig]), List.filter_cons_of_pos (by simp [hig]),
        List.flatMap_cons, scanOutcome_append]
      have hscan : scanObstacle c.obb c.id position stepSize radius res =
          scanOutcome radius
            ((List.range (10 + 1)).filterMap
              (sampleHit c.obb c.id position stepSize radius)) res := by
        unfold scanObstacle
        exact scan_samples_eq c.obb c.id position stepSize radius _ res
      rw [hscan]
      cases houtc : scanOutcome radius
          ((List.range (10 + 1)).filterMap
            (sampleHit c.obb c.id position stepSize radius)) res with
      | inl res2 => exact ih res2
      | inr x => rfl

/-- `checkGroundCollision` computes exactly the specification-side scan
`groundScanSpec`. -/
theorem checkGroundCollision_eq_spec (cs : List Collidable) (position : Vec3)
    (radius height : ℝ) (ig : Option ℕ) :
    checkGroundCollision cs position radius height ig =
      groundScanSpec cs position radius height ig := by
  simp only [checkGroundCollision, groundScanSpec, groundHits]
  rw [scan_obstacles_eq position (height / 10) radius ig cs emptyGroundResult]
  unfold scanOutcome
  cases hfind : ((cs.filter fun c => !(ig == some c.id)).flatMap fun c =>
      (List.range (10 + 1)).filterMap
        (sampleHit c.obb c.id position (height / 10) radius)).find?
      (fun h => decide (h.2.2.y > 0.7)) with
  | some h => rfl
  | none =>
    cases hlast : ((cs.filter fun c => !(ig == some c.id)).flatMap fun c =>
        (List.range (10 + 1)).filterMap
          (sampleHit c.obb c.id position (height / 10) radius)).getLast? with
    | some h => rfl
    | none => rfl

end CollisionSystem

/-- At every probe height within the wall, the test sphere beside `tallWall`
hits its vertical face with the horizontal penetration `(-0.11, 0, 0)`. -/
theorem tallWall_sample (y : ℝ) (h1 : -10 ≤ y) (h2 : y ≤ 10) :
    OrientedBoundingBox.sphereCollisionInfo tallWall.obb ⟨0.6, y, 0⟩ 0.5 =
      ⟨true, some ⟨-0.11, 0, 0⟩⟩ := by
  have hclose : tallWall.obb.closestPointToPoint ⟨0.6, y, 0⟩ = ⟨1, y, 0⟩ := by
    unfold OrientedBoundingBox.closestPointToPoint
    simp only [tallWall, OrientedBoundingBox.halfComp, stdAxes, Vec3.dot,
      Vec3.sub_def, Vec3.add_def, Vec3.smul_def]
    norm_num
    rw [min_eq_left h2, max_eq_right h1]
  rw [OrientedBoundingBox.sci_eq, hclose]
  have hsub : (⟨0.6, y, 0⟩ - ⟨1, y, 0⟩ : Vec3) = ⟨-0.4, 0, 0⟩ := by
    simp only [Vec3.sub_def, Vec3.mk.injEq]
    norm_num
  rw [hsub]
  have hlen : Vec3.len ⟨-0.4, 0, 0⟩ = 0.4 :=
    Vec3.len_eq_of 0.4 (by norm_num) (by norm_num [Vec3.normSq])
  rw [hlen, if_pos (by norm_num : (0.4 : ℝ) ≤ 0.5),
    if_neg (by norm_num : ¬((0.4 : ℝ) < 0.0001))]
  have hnorm : Vec3.normalize ⟨-0.4, 0, 0⟩ = ⟨-1, 0, 0⟩ := by
    rw [Vec3.normalize_eq_of 0.4 (by norm_num) (by norm_num [Vec3.normSq])]
    simp only [Vec3.smul_def, Vec3.mk.injEq]
    norm_num
  rw [hnorm]
  simp only [OrientedBoundingBox.SphereHit.mk.injEq, Option.some.injEq,
    Vec3.smul_def, Vec3.mk.injEq]
  norm_num

/-- Every one of the eleven probe samples beside `tallWall` records a
wall-like hit (horizontal normal `(-1, 0, 0)`). -/
theorem tallWall_hit (i : ℕ) (hi : i ≤ 10) :
    CollisionSystem.sampleHit tallWall.obb 0 ⟨0.6, 5, 0⟩ (3 / 10) 0.5 i =
      some (0, (5 : ℝ) - i * (3 / 10), (⟨-1, 0, 0⟩ : Vec3)) := by
  have hiR : (i : ℝ) ≤ 10 := by exact_mod_cast hi
  have hiR0 : (0 : ℝ) ≤ (i : ℝ) := Nat.cast_nonneg i
  have hy1 : (-10 : ℝ) ≤ 5 - i * (3 / 10) := by nlinarith
  have hy2 : (5 : ℝ) - i * (3 / 10) ≤ 10 := by nlinarith
  unfold CollisionSystem.sampleHit CollisionSystem.sampleCenter
  dsimp only
  rw [tallWall_sample (5 - i * (3 / 10)) hy1 hy2]
  have hnorm : Vec3.normalize ⟨-0.11, 0, 0⟩ = ⟨-1, 0, 0⟩ := by
    rw [Vec3.normalize_eq_of 0.11 (by norm_num) (by norm_num [Vec3.normSq])]
    simp only [Vec3.smul_def, Vec3.mk.injEq]
    norm_num
  simp [hnorm]

/-- Counterexample to C2 as stated: beside `tallWall` every probe contact is
wall-like (the recorded normal is `(-1, 0, 0)`, with vertical component `0`,
not above `0.7`), yet `checkGroundCollision` reports `collision = true` with
a ground height, so a wall-like contact is returned as ground. -/
theorem ground_probe_wall_counterexample :
    (CollisionSystem.checkGroundCollision [tallWall] ⟨0.6, 5, 0⟩ 0.5 3 none).collision = true ∧
    (CollisionSystem.checkGroundCollision [tallWall] ⟨0.6, 5, 0⟩ 0.5 3 none).normal =
      some ⟨-1, 0, 0⟩ ∧
    (CollisionSystem.checkGroundCollision [tallWall] ⟨0.6, 5, 0⟩ 0.5 3 none).groundY =
      some 2.5 := by
  have heq := CollisionSystem.checkGroundCollision_eq_spec [tallWall] ⟨0.6, 5, 0⟩ 0.5 3 none
  rw [heq]
  unfold CollisionSystem.groundScanSpec CollisionSystem.groundHits
  have hrange : List.range (10 + 1) = [0, 1, 2, 3, 4, 5, 6, 7, 8, 9, 10] := rfl
  have hfilter : ([tallWall].filter fun c => !((none : Option ℕ) == some c.id)) =
      [tallWall] := rfl
  simp only [hfilter, List.flatMap_cons, List.flatMap_nil, List.append_nil, hrange,
    List.filterMap_cons, List.filterMap_nil, show tallWall.id = 0 from rfl,
    tallWall_hit 0 (by norm_num), tallWall_hit 1 (by norm_num),
    tallWall_hit 2 (by norm_num), tallWall_hit 3 (by norm_num),
    tallWall_hit 4 (by norm_num), tallWall_hit 5 (by norm_num),
    tallWall_hit 6 (by norm_num), tallWall_hit 7 (by norm_num),
    tallWall_hit 8 (by norm_num), tallWall_hit 9 (by norm_num),
    tallWall_hit 10 (by norm_num)]
  have hdec : ∀ yv : ℝ,
      (fun h : ℕ × ℝ × Vec3 => decide (h.2.2.y > 0.7)) (0, yv, (⟨-1, 0, 0⟩ : Vec3)) =
        false := fun yv => decide_eq_false (by norm_num)
  simp only [List.find?_cons, hdec, List.getLast?_cons_cons, List.getLast?_singleton,
    CollisionSystem.toGroundResult]
  refine ⟨rfl, rfl, ?_⟩
  norm_num

/-- C2 (amended): a probe contact whose normalised penetration normal has
vertical component above `0.7` is classified as floor, and the first such
contact in scan order is returned immediately with `groundY` equal to the
sample height plus the radius.  A wall-like contact (vertical component not
above `0.7`) is not excluded from the result, however: it is recorded and
scanning continues, so when only wall-like contacts occur the probe still
reports `collision = true` with the data of the last wall-like contact
instead of reporting no ground.  Formally, `checkGroundCollision` equals the
first-floor-else-last-hit-else-empty scan `groundScanSpec` over the hit list
in scan order. -/
theorem ground_probe_classification (cs : List Collidable) (position : Vec3)
    (radius height : ℝ) (ig : Option ℕ) :
    CollisionSystem.checkGroundCollision cs position radius height ig =
      CollisionSystem.groundScanSpec cs position radius height ig :=
  CollisionSystem.checkGroundCollision_eq_spec cs position radius height ig

/-- The query sphere at the corner grazes `cornerBoxA` with penetration
depth 0.11. -/
theorem cornerBoxA_info :
    OrientedBoundingBox.sphereCollisionInfo cornerBoxA.obb ⟨1.6, 0, 0⟩ 0.5 =
      ⟨true, some ⟨-0.11, 0, 0⟩⟩ := by
  have hclose : cornerBoxA.obb.closestPointToPoint ⟨1.6, 0, 0⟩ = ⟨2, 0, 0⟩ := by
    unfold OrientedBoundingBox.closestPointToPoint
    simp only [cornerBoxA, OrientedBoundingBox.halfComp, stdAxes, Vec3.dot,
      Vec3.sub_def, Vec3.add_def, Vec3.smul_def]
    norm_num
  rw [OrientedBoundingBox.sci_eq, hclose]
  have hsub : (⟨1.6, 0, 0⟩ - ⟨2, 0, 0⟩ : Vec3) = ⟨-0.4, 0, 0⟩ := by
    simp only [Vec3.sub_def, Vec3.mk.injEq]
    norm_num
  rw [hsub]
  have hlen : Vec3.len ⟨-0.4, 0, 0⟩ = 0.4 :=
    Vec3.len_eq_of 0.4 (by norm_num) (by norm_num [Vec3.normSq])
  rw [hlen, if_pos (by norm_num : (0.4 : ℝ) ≤ 0.5),
    if_neg (by norm_num : ¬((0.4 : ℝ) < 0.0001))]
  have hnorm : Vec3.normalize ⟨-0.4, 0, 0⟩ = ⟨-1, 0, 0⟩ := by
    rw [Vec3.normalize_eq_of 0.4 (by norm_num) (by norm_num [Vec3.normSq])]
    simp only [Vec3.smul_def, Vec3.mk.injEq]
    norm_num
  rw [hnorm]
  simp only [OrientedBoundingBox.SphereHit.mk.injEq, Option.some.injEq,
    Vec3.smul_def, Vec3.mk.injEq]
  norm_num

/-- The same query sphere penetrates the top face of `cornerBoxB` more
deeply, with penetration depth 0.21. -/
theorem cornerBoxB_info :
    OrientedBoundingBox.sphereCollisionInfo cornerBoxB.obb ⟨1.6, 0, 0⟩ 0.5 =
      ⟨true, some ⟨0, 0.21, 0⟩⟩ := by
  have hclose : cornerBoxB.obb.closestPointToPoint ⟨1.6, 0, 0⟩ = ⟨1.6, -0.3, 0⟩ := by
    unfold OrientedBoundingBox.closestPointToPoint
    simp only [cornerBoxB, OrientedBoundingBox.halfComp, stdAxes, Vec3.dot,
      Vec3.sub_def, Vec3.add_def, Vec3.smul_def]
    norm_num
  rw [OrientedBoundingBox.sci_eq, hclose]
  have hsub : (⟨1.6, 0, 0⟩ - ⟨1.6, -0.3, 0⟩ : Vec3) = ⟨0, 0.3, 0⟩ := by
    simp only [Vec3.sub_def, Vec3.mk.injEq]
    norm_num
  rw [hsub]
  have hlen : Vec3.len ⟨0, 0.3, 0⟩ = 0.3 :=
    Vec3.len_eq_of 0.3 (by norm_num) (by norm_num [Vec3.normSq])
  rw [hlen, if_pos (by norm_num : (0.3 : ℝ) ≤ 0.5),
    if_neg (by norm_num : ¬((0.3 : ℝ) < 0.0001))]
  have hnorm : Vec3.normalize ⟨0, 0.3, 0⟩ = ⟨0, 1, 0⟩ := by
    rw [Vec3.normalize_eq_of 0.3 (by norm_num) (by norm_num [Vec3.normSq])]
    simp only [Vec3.smul_def, Vec3.mk.injEq]
    norm_num
  rw [hnorm]
  simp only [OrientedBoundingBox.SphereHit.mk.injEq, Option.some.injEq,
    Vec3.smul_def, Vec3.mk.injEq]
  norm_num

/-- C1: at a corner where the query sphere overlaps both `cornerBoxA`
(penetration magnitude 0.11) and `cornerBoxB` (penetration magnitude 0.21),
`getCollisionInfo` returns the contact of `cornerBoxA` — the shallowest
penetration, not the deepest: the `penetrationDepth < minPenetrationDepth`
comparison of the source keeps the minimum, contradicting both the
deepest-penetration-wins policy of the specification and the source comment
(deepest penetration so far) directly above the comparison. -/
theorem getCollisionInfo_keeps_shallowest :
    (CollisionSystem.getCollisionInfo [cornerBoxA, cornerBoxB] ⟨1.6, 0, 0⟩ 0.5
      none).penetration = some ⟨-0.11, 0, 0⟩ ∧
    (CollisionSystem.getCollisionInfo [cornerBoxA, cornerBoxB] ⟨1.6, 0, 0⟩ 0.5
      none).collidable = some cornerBoxA.id ∧
    (OrientedBoundingBox.sphereCollisionInfo cornerBoxB.obb ⟨1.6, 0, 0⟩
      0.5).collision = true ∧
    (OrientedBoundingBox.sphereCollisionInfo cornerBoxB.obb ⟨1.6, 0, 0⟩
      0.5).penetration = some ⟨0, 0.21, 0⟩ ∧
    Vec3.len ⟨-0.11, 0, 0⟩ < Vec3.len ⟨0, 0.21, 0⟩ := by
  have hlA : Vec3.len ⟨-0.11, 0, 0⟩ = 0.11 :=
    Vec3.len_eq_of 0.11 (by norm_num) (by norm_num [Vec3.normSq])
  have hlB : Vec3.len ⟨0, 0.21, 0⟩ = 0.21 :=
    Vec3.len_eq_of 0.21 (by norm_num) (by norm_num [Vec3.normSq])
  have hfold : CollisionSystem.getCollisionInfo [cornerBoxA, cornerBoxB]
      ⟨1.6, 0, 0⟩ 0.5 none = ⟨true, some ⟨-0.11, 0, 0⟩, some 0⟩ := by
    unfold CollisionSystem.getCollisionInfo
    rw [List.foldl_cons, List.foldl_cons, List.foldl_nil]
    have h1 : CollisionSystem.giStep ⟨1.6, 0, 0⟩ 0.5 none
        (⟨false, none, none⟩, none) cornerBoxA =
        (⟨true, some ⟨-0.11, 0, 0⟩, some 0⟩, some 0.11) := by
      unfold CollisionSystem.giStep
      rw [if_neg (by simp), cornerBoxA_info]
      simp only [hlA]
      rfl
    rw [h1]
    have h2 : CollisionSystem.giStep ⟨1.6, 0, 0⟩ 0.5 none
        (⟨true, some ⟨-0.11, 0, 0⟩, some 0⟩, some 0.11) cornerBoxB =
        (⟨true, some ⟨-0.11, 0, 0⟩, some 0⟩, some 0.11) := by
      unfold CollisionSystem.giStep
      rw [if_neg (by simp), cornerBoxB_info]
      simp only [hlB]
      rw [if_neg (by norm_num : ¬((0.21 : ℝ) < 0.11))]
      simp
    rw [h2]
  rw [hfold, cornerBoxB_info, hlA, hlB]
  refine ⟨rfl, rfl, rfl, rfl, by norm_num⟩

/-- The minimum-face-exit direction is always a signed face axis. -/
theorem getMinPen_shape (b : OrientedBoundingBox) (point : Vec3) :
    ∃ (k : Fin 3) (d : ℝ), (d = 1 ∨ d = -1) ∧
      OrientedBoundingBox.getMinPenetrationVector b point = d • b.axes k := by
  have hdirs : ∀ e ∈ OrientedBoundingBox.depthEntries b point,
      e.dir = 1 ∨ e.dir = -1 := by
    intro e he
    simp only [OrientedBoundingBox.depthEntries, List.mem_cons,
      List.not_mem_nil, or_false] at he
    rcases he with rfl | rfl | rfl | rfl | rfl | rfl <;> simp
  have hmem : (List.insertionSort
        (fun p q : OrientedBoundingBox.DepthEntry => p.dist ≤ q.dist)
        (OrientedBoundingBox.depthEntries b point)).headD ⟨0, 0, 1⟩ ∈
      OrientedBoundingBox.depthEntries b point := by
    have hperm := List.perm_insertionSort
      (fun p q : OrientedBoundingBox.DepthEntry => p.dist ≤ q.dist)
      (OrientedBoundingBox.depthEntries b point)
    cases hs : List.insertionSort
        (fun p q : OrientedBoundingBox.DepthEntry => p.dist ≤ q.dist)
        (OrientedBoundingBox.depthEntries b point) with
    | nil =>
      rw [hs] at hperm
      have : OrientedBoundingBox.depthEntries b point = [] := hperm.symm.eq_nil
      simp [OrientedBoundingBox.depthEntries] at this
    | cons e t =>
      rw [hs] at hperm
      have he : e ∈ OrientedBoundingBox.depthEntries b point :=
        hperm.subset (List.mem_cons_self e t)
      simpa using he
  exact ⟨_, _, hdirs _ hmem, rfl⟩

/-- The closest point of a box to its own center is the center. -/
theorem closestPoint_center (b : OrientedBoundingBox)
    (hx : 0 ≤ b.halfSize.x) (hy : 0 ≤ b.halfSize.y) (hz : 0 ≤ b.halfSize.z) :
    b.closestPointToPoint b.center = b.center := by
  unfold OrientedBoundingBox.closestPointToPoint
  have hzero : (b.center - b.center : Vec3) = ⟨0, 0, 0⟩ := by
    simp [Vec3.sub_def]
  rw [hzero]
  have hdot : ∀ i : Fin 3, Vec3.dot ⟨0, 0, 0⟩ (b.axes i) = 0 := by
    intro i
    simp [Vec3.dot]
  simp only [hdot]
  have hc : ∀ i : Fin 3, max (-(b.halfComp i)) (min 0 (b.halfComp i)) = 0 := by
    intro i
    have h0 : 0 ≤ b.halfComp i := by
      match i with
      | 0 => exact hx
      | 1 => exact hy
      | 2 => exact hz
    rw [min_eq_left h0, max_eq_right (by linarith)]
  simp only [hc]
  simp [Vec3.smul_def, Vec3.add_def]

/-- C5 (amended): for every box with positive half-extents and unit axes and
every sphere with non-negative radius whose center coincides with the center
of the box, `sphereCollisionInfo` reports a collision whose penetration is a
signed face axis scaled to magnitude radius + 0.01.  (The magnitude claimed
originally, at least smallest half-extent + 0.01, does not hold: the
magnitude does not depend on the half-extents at all.) -/
theorem sphere_center_penetration (b : OrientedBoundingBox) (r : ℝ)
    (hx : 0 < b.halfSize.x) (hy : 0 < b.halfSize.y) (hz : 0 < b.halfSize.z)
    (hax : ∀ i : Fin 3, Vec3.len (b.axes i) = 1) (hr : 0 ≤ r) :
    (OrientedBoundingBox.sphereCollisionInfo b b.center r).collision = true ∧
    ∃ (k : Fin 3) (d : ℝ) (p : Vec3),
      (d = 1 ∨ d = -1) ∧
      (OrientedBoundingBox.sphereCollisionInfo b b.center r).penetration = some p ∧
      p = (r + 0.01) • (d • b.axes k) ∧
      Vec3.len p = r + 0.01 := by
  have hclose := closestPoint_center b hx.le hy.le hz.le
  have hzero : (b.center - b.center : Vec3) = ⟨0, 0, 0⟩ := by
    simp [Vec3.sub_def]
  rw [OrientedBoundingBox.sci_eq, hclose, hzero, Vec3.len_mk_zero,
    if_pos hr, if_pos (by norm_num : (0 : ℝ) < 0.0001)]
  obtain ⟨k, d, hd, hmin⟩ := getMinPen_shape b b.center
  refine ⟨rfl, k, d, (r - 0 + 0.01) • (d • b.axes k), hd, by rw [hmin], ?_, ?_⟩
  · norm_num
  · rw [Vec3.len_smul, Vec3.len_smul, hax k,
      abs_of_nonneg (by linarith : (0 : ℝ) ≤ r - 0 + 0.01)]
    rcases hd with rfl | rfl <;> norm_num

/-- Counterexample to C5 as stated: for the unit box and a sphere of radius
0.1 at its center, the returned penetration is `(0.11, 0, 0)` with magnitude
0.11, well below the claimed lower bound smallest half-extent + 0.01 = 1.01. -/
theorem sphere_center_penetration_counterexample :
    (OrientedBoundingBox.sphereCollisionInfo unitBox ⟨0, 0, 0⟩ 0.1).collision = true ∧
    (OrientedBoundingBox.sphereCollisionInfo unitBox ⟨0, 0, 0⟩ 0.1).penetration =
      some ⟨0.11, 0, 0⟩ ∧
    Vec3.len ⟨0.11, 0, 0⟩ <
      min (min unitBox.halfSize.x unitBox.halfSize.y) unitBox.halfSize.z + 0.01 := by
  have hclose : unitBox.closestPointToPoint ⟨0, 0, 0⟩ = ⟨0, 0, 0⟩ := by
    have h := closestPoint_center unitBox (by norm_num [unitBox]) (by norm_num [unitBox])
      (by norm_num [unitBox])
    simpa [unitBox] using h
  have hmin : unitBox.getMinPenetrationVector ⟨0, 0, 0⟩ = ⟨1, 0, 0⟩ := by
    unfold OrientedBoundingBox.getMinPenetrationVector
    have hdep : OrientedBoundingBox.depthEntries unitBox ⟨0, 0, 0⟩ =
        [⟨0, 1, 1⟩, ⟨0, 1, -1⟩, ⟨1, 1, 1⟩, ⟨1, 1, -1⟩, ⟨2, 1, 1⟩, ⟨2, 1, -1⟩] := by
      unfold OrientedBoundingBox.depthEntries
      simp only [unitBox, stdAxes, OrientedBoundingBox.halfComp, Vec3.dot,
        Vec3.sub_def, OrientedBoundingBox.DepthEntry.mk.injEq]
      norm_num
    rw [hdep]
    have hsort : List.insertionSort
        (fun p q : OrientedBoundingBox.DepthEntry => p.dist ≤ q.dist)
        ([⟨0, 1, 1⟩, ⟨0, 1, -1⟩, ⟨1, 1, 1⟩, ⟨1, 1, -1⟩, ⟨2, 1, 1⟩, ⟨2, 1, -1⟩] :
          List OrientedBoundingBox.DepthEntry) =
        [⟨0, 1, 1⟩, ⟨0, 1, -1⟩, ⟨1, 1, 1⟩, ⟨1, 1, -1⟩, ⟨2, 1, 1⟩, ⟨2, 1, -1⟩] := by
      simp [List.insertionSort, List.orderedInsert]
    simp only [hsort, List.headD_cons]
    simp [unitBox, stdAxes, Vec3.smul_def]
  have hsub : (⟨0, 0, 0⟩ - ⟨0, 0, 0⟩ : Vec3) = ⟨0, 0, 0⟩ := by
    simp [Vec3.sub_def]
  rw [OrientedBoundingBox.sci_eq, hclose, hsub, Vec3.len_mk_zero,
    if_pos (by norm_num : (0 : ℝ) ≤ 0.1), if_pos (by norm_num : (0 : ℝ) < 0.0001), hmin]
  have hlen : Vec3.len ⟨0.11, 0, 0⟩ = 0.11 :=
    Vec3.len_eq_of 0.11 (by norm_num) (by norm_num [Vec3.normSq])
  refine ⟨rfl, ?_, ?_⟩
  · simp only [Option.some.injEq, Vec3.smul_def, Vec3.mk.injEq]
    norm_num
  · rw [hlen]
    norm_num [unitBox]

/-- Witness for the amended C5 at the unit box with radius 0.1. -/
theorem sphere_center_penetration_witness :
    (OrientedBoundingBox.sphereCollisionInfo unitBox unitBox.center 0.1).collision = true := by
  have hax : ∀ i : Fin 3, Vec3.len (unitBox.axes i) = 1 := by
    intro i
    fin_cases i
    · exact Vec3.len_eq_of 1 (by norm_num) (by norm_num [Vec3.normSq, unitBox, stdAxes])
    · exact Vec3.len_eq_of 1 (by norm_num) (by norm_num [Vec3.normSq, unitBox, stdAxes])
    · exact Vec3.len_eq_of 1 (by norm_num) (by norm_num [Vec3.normSq, unitBox, stdAxes])
  exact (sphere_center_penetration unitBox 0.1 (by norm_num [unitBox])
    (by norm_num [unitBox]) (by norm_num [unitBox]) hax (by norm_num)).1

namespace Player

/-- A fan-search fold over blocked candidates never changes the
accumulator. -/
theorem fan_foldl_blocked (check : Vec3 → Bool) (startPos moveVector : Vec3)
    (speed : ℝ) (L : List ℕ) (acc : ℝ × Vec3)
    (h : ∀ i ∈ L, check (fanTestPos startPos moveVector speed i) = true) :
    L.foldl (fanStep check startPos moveVector speed) acc = acc := by
  induction L generalizing acc with
  | nil => rfl
  | cons i L ih =>
    rw [List.foldl_cons]
    have hstep : fanStep check startPos moveVector speed acc i = acc := by
      unfold fanStep
      dsimp only
      rw [h i (List.mem_cons_self i L)]
      simp
    rw [hstep]
    exact ih acc fun j hj => h j (List.mem_cons_of_mem i hj)

end Player

namespace Enemy

/-- The enemy fan-search fold over blocked candidates never changes the
accumulator. -/
theorem enemy_fan_foldl_blocked (check : Vec3 → Bool) (startPos moveVector : Vec3)
    (L : List ℕ) (acc : ℝ × Vec3)
    (h : ∀ i ∈ L, check (fanTestPos startPos moveVector i) = true) :
    L.foldl (fanStep check startPos moveVector) acc = acc := by
  induction L generalizing acc with
  | nil => rfl
  | cons i L ih =>
    rw [List.foldl_cons]
    have hstep : fanStep check startPos moveVector acc i = acc := by
      unfold fanStep
      dsimp only
      rw [h i (List.mem_cons_self i L)]
      simp
    rw [hstep]
    exact ih acc fun j hj => h j (List.mem_cons_of_mem i hj)

end Enemy

/-- C8: when every one of the 16 angular-fan candidate positions collides
(for any obstacle configuration and radius), the fan search writes no
position: the resolved position equals the pre-call position exactly. -/
theorem fan_all_blocked_no_move (cs : List Collidable) (radius : ℝ)
    (startPos moveVector : Vec3) (speed : ℝ)
    (h : ∀ i < Player.angleCount,
      CollisionSystem.checkCollision cs (Player.fanTestPos startPos moveVector speed i)
        radius none = true) :
    Player.findBestSlidingDirection startPos moveVector speed
      (fun q => CollisionSystem.checkCollision cs q radius none) = startPos := by
  unfold Player.findBestSlidingDirection
  rw [Player.fan_foldl_blocked _ startPos moveVector speed _ _
    (fun i hi => h i (List.mem_range.1 hi))]
  rw [if_neg (by norm_num : ¬((0 : ℝ) > 0))]

/-- C9: the movement resolver invoked with a zero-length input direction
returns the input position unchanged and arms no climb, for every obstacle
configuration. -/
theorem resolveMovement_zero_displacement (cs : List Collidable)
    (radius speed maxStepHeight standingHeight : ℝ) (isOnGround : Bool)
    (pos direction : Vec3) (rotY : ℝ) (h : Vec3.len direction = 0) :
    Player.resolveMovement cs radius speed maxStepHeight standingHeight isOnGround
      pos direction rotY = ⟨pos, none⟩ := by
  unfold Player.resolveMovement
  rw [if_pos h]

/-- Witness for C9 at a concrete position with the zero direction. -/
theorem resolveMovement_zero_displacement_witness :
    Player.resolveMovement [] 1.5 0.2 0.5 1.5 true ⟨1, 2, 3⟩ ⟨0, 0, 0⟩ 0 =
      ⟨⟨1, 2, 3⟩, none⟩ :=
  resolveMovement_zero_displacement [] 1.5 0.2 0.5 1.5 true ⟨1, 2, 3⟩ ⟨0, 0, 0⟩ 0
    Vec3.len_mk_zero

/-- Any point with coordinates within 100 of the origin collides with
`bigBox`. -/
theorem bigBox_blocks (p : Vec3) (h1 : |p.x| ≤ 100) (h2 : |p.y| ≤ 100)
    (h3 : |p.z| ≤ 100) :
    CollisionSystem.checkCollision [bigBox] p 0.5 none = true := by
  obtain ⟨h1a, h1b⟩ := abs_le.1 h1
  obtain ⟨h2a, h2b⟩ := abs_le.1 h2
  obtain ⟨h3a, h3b⟩ := abs_le.1 h3
  have hclose : bigBox.obb.closestPointToPoint p = p := by
    unfold OrientedBoundingBox.closestPointToPoint
    simp only [bigBox, OrientedBoundingBox.halfComp, stdAxes, Vec3.dot, Vec3.sub_def,
      Vec3.add_def, Vec3.smul_def]
    norm_num
    rw [min_eq_left h1b, max_eq_right h1a, min_eq_left h2b, max_eq_right h2a,
      min_eq_left h3b, max_eq_right h3a]
  have hint : OrientedBoundingBox.intersectsSphere bigBox.obb p 0.5 := by
    unfold OrientedBoundingBox.intersectsSphere Vec3.distSq
    rw [hclose]
    have : Vec3.sub p p = ⟨0, 0, 0⟩ := by
      simp [Vec3.sub]
    rw [this]
    norm_num [Vec3.normSq]
  unfold CollisionSystem.checkCollision
  simp only [List.any_cons, List.any_nil, Bool.or_false]
  have hbeq : ((none : Option ℕ) == some bigBox.id) = false := rfl
  simp [hbeq, hint]

/-- The player fan candidates started at the origin with desired
displacement `(0.2, 0, 0)` and speed 0.2, written in closed form. -/
theorem player_fanTestPos_eval (i : ℕ) :
    Player.fanTestPos ⟨0, 0, 0⟩ ⟨0.2, 0, 0⟩ 0.2 i =
      ⟨0.2 * Real.cos (-(Real.pi / 2) + i * (Real.pi / 15)), 0,
        0.2 * Real.sin (-(Real.pi / 2) + i * (Real.pi / 15))⟩ := by
  unfold Player.fanTestPos Player.fanRotatedDir
  dsimp only
  have hnorm : Vec3.normalize ⟨0.2, 0, 0⟩ = ⟨1, 0, 0⟩ := by
    rw [Vec3.normalize_eq_of 0.2 (by norm_num) (by norm_num [Vec3.normSq])]
    simp only [Vec3.smul_def, Vec3.mk.injEq]
    norm_num
  rw [hnorm]
  have hang : ((Player.angleCount : ℝ) - 1) = 15 := by
    norm_num [Player.angleCount]
  rw [hang]
  simp only [Vec3.smul_def, Vec3.mk.injEq]
  refine ⟨by ring, by norm_num, by ring⟩

/-- Witness for C8: around the origin inside `bigBox` every fan candidate
collides, and the fan search leaves the position unchanged. -/
theorem fan_all_blocked_no_move_witness :
    Player.findBestSlidingDirection ⟨0, 0, 0⟩ ⟨0.2, 0, 0⟩ 0.2
      (fun q => CollisionSystem.checkCollision [bigBox] q 0.5 none) = ⟨0, 0, 0⟩ := by
  apply fan_all_blocked_no_move
  intro i hi
  rw [player_fanTestPos_eval i]
  apply bigBox_blocks
  · have hc := Real.abs_cos_le_one (-(Real.pi / 2) + i * (Real.pi / 15))
    rw [abs_mul, abs_of_nonneg (by norm_num : (0 : ℝ) ≤ 0.2)]
    nlinarith
  · norm_num
  · have hs := Real.abs_sin_le_one (-(Real.pi / 2) + i * (Real.pi / 15))
    rw [abs_mul, abs_of_nonneg (by norm_num : (0 : ℝ) ≤ 0.2)]
    nlinarith

/-- C7: the step-up boundary is inclusive.  Whenever the actor is grounded,
the raised test position (new position lifted by the step height) is
collision-free, and the ground probe below it reports a ground height whose
delta from the current height lies in the half-open interval
`(0, maxStepHeight]`, `tryStepUp` begins the timed climb and returns the
climb target; in particular a delta exactly equal to the step height is
climbable. -/
theorem tryStepUp_inclusive (cs : List Collidable)
    (radius maxStepHeight standingHeight : ℝ)
    (originalPosition newPosition : Vec3) (gy : ℝ)
    (hfree : CollisionSystem.checkCollision cs
      ⟨newPosition.x, newPosition.y + maxStepHeight, newPosition.z⟩ radius none = false)
    (hcol : (CollisionSystem.checkGroundCollision cs
      ⟨newPosition.x, newPosition.y + maxStepHeight, newPosition.z⟩ radius
      (maxStepHeight + 0.1) none).collision = true)
    (hgy : (CollisionSystem.checkGroundCollision cs
      ⟨newPosition.x, newPosition.y + maxStepHeight, newPosition.z⟩ radius
      (maxStepHeight + 0.1) none).groundY = some gy)
    (hlow : 0 < gy + standingHeight - originalPosition.y)
    (hhigh : gy + standingHeight - originalPosition.y ≤ maxStepHeight) :
    Player.tryStepUp cs radius maxStepHeight standingHeight true
      originalPosition newPosition =
      some ⟨newPosition.x, gy + standingHeight, newPosition.z⟩ := by
  unfold Player.tryStepUp
  dsimp only
  rw [if_neg (by simp : ¬(true = false)), hfree]
  rw [if_neg (by simp : ¬(false = true)), hcol]
  rw [if_pos rfl, hgy]
  dsimp only
  rw [if_pos ⟨hlow, hhigh⟩]

/-- Above `stepBox`, a probe sphere centered at height at least 2.12 has its
closest box point on the top face. -/
theorem stepBox_probe (y : ℝ) (hy : 2.12 ≤ y) :
    stepBox.obb.closestPointToPoint ⟨2, y, 0⟩ = ⟨2, 2.12, 0⟩ := by
  unfold OrientedBoundingBox.closestPointToPoint
  simp only [stepBox, OrientedBoundingBox.halfComp, stdAxes, Vec3.dot, Vec3.sub_def,
    Vec3.add_def, Vec3.smul_def]
  norm_num
  rw [min_eq_right (by linarith : (1 : ℝ) ≤ y - 28 / 25),
    max_eq_right (by norm_num : -(1 : ℝ) ≤ 1)]
  norm_num

/-- Probe samples 0 to 4 above `stepBox` are too far from the top face to
collide. -/
theorem stepBox_sample_miss (cid : ℕ) (i : ℕ) (hi : i ≤ 4) :
    CollisionSystem.sampleHit stepBox.obb cid ⟨2, 2 + 0.5, 0⟩ ((0.5 + 0.1) / 10)
      0.1 i = none := by
  have hiR : (i : ℝ) ≤ 4 := by exact_mod_cast hi
  have hiR0 : (0 : ℝ) ≤ (i : ℝ) := Nat.cast_nonneg i
  have hy : (2.12 : ℝ) ≤ (2 + 0.5) - (i : ℝ) * ((0.5 + 0.1) / 10) := by nlinarith
  have hclose := stepBox_probe ((2 + 0.5) - (i : ℝ) * ((0.5 + 0.1) / 10)) hy
  have hsub : (⟨2, (2 + 0.5) - (i : ℝ) * ((0.5 + 0.1) / 10), 0⟩ - ⟨2, 2.12, 0⟩ : Vec3) =
      ⟨0, (2 + 0.5) - (i : ℝ) * ((0.5 + 0.1) / 10) - 2.12, 0⟩ := by
    simp only [Vec3.sub_def, Vec3.mk.injEq]
    norm_num
  have hlen : Vec3.len ⟨0, (2 + 0.5) - (i : ℝ) * ((0.5 + 0.1) / 10) - 2.12, 0⟩ =
      (2 + 0.5) - (i : ℝ) * ((0.5 + 0.1) / 10) - 2.12 :=
    Vec3.len_eq_of _ (by nlinarith) (by simp only [Vec3.normSq]; ring)
  have hsci : OrientedBoundingBox.sphereCollisionInfo stepBox.obb
      ⟨2, (2 + 0.5) - (i : ℝ) * ((0.5 + 0.1) / 10), 0⟩ 0.1 = ⟨false, none⟩ := by
    rw [OrientedBoundingBox.sci_eq, hclose, hsub, hlen,
      if_neg (by nlinarith : ¬((2 + 0.5) - (i : ℝ) * ((0.5 + 0.1) / 10) - 2.12 ≤ 0.1))]
  unfold CollisionSystem.sampleHit CollisionSystem.sampleCenter
  dsimp only
  rw [hsci]

/-- Probe sample 5 above `stepBox` touches the top face and is classified
with the upward normal. -/
theorem stepBox_sample_hit (cid : ℕ) :
    CollisionSystem.sampleHit stepBox.obb cid ⟨2, 2 + 0.5, 0⟩ ((0.5 + 0.1) / 10)
      0.1 5 =
      some (cid, (2 + 0.5) - ((5 : ℕ) : ℝ) * ((0.5 + 0.1) / 10), (⟨0, 1, 0⟩ : Vec3)) := by
  have he : ((2 + 0.5 : ℝ)) - ((5 : ℕ) : ℝ) * ((0.5 + 0.1) / 10) = 2.2 := by norm_num
  have hclose := stepBox_probe 2.2 (by norm_num)
  have hsub : (⟨2, 2.2, 0⟩ - ⟨2, 2.12, 0⟩ : Vec3) = ⟨0, 0.08, 0⟩ := by
    simp only [Vec3.sub_def, Vec3.mk.injEq]
    norm_num
  have hlen : Vec3.len ⟨0, 0.08, 0⟩ = 0.08 :=
    Vec3.len_eq_of 0.08 (by norm_num) (by norm_num [Vec3.normSq])
  have hnorm8 : Vec3.normalize ⟨0, 0.08, 0⟩ = ⟨0, 1, 0⟩ := by
    rw [Vec3.normalize_eq_of 0.08 (by norm_num) (by norm_num [Vec3.normSq])]
    simp only [Vec3.smul_def, Vec3.mk.injEq]
    norm_num
  have hsci : OrientedBoundingBox.sphereCollisionInfo stepBox.obb ⟨2, 2.2, 0⟩ 0.1 =
      ⟨true, some ⟨0, 0.03, 0⟩⟩ := by
    rw [OrientedBoundingBox.sci_eq, hclose, hsub, hlen,
      if_pos (by norm_num : (0.08 : ℝ) ≤ 0.1),
      if_neg (by norm_num : ¬((0.08 : ℝ) < 0.0001)), hnorm8]
    simp only [OrientedBoundingBox.SphereHit.mk.injEq, Option.some.injEq,
      Vec3.smul_def, Vec3.mk.injEq]
    norm_num
  have hnorm3 : Vec3.normalize ⟨0, 0.03, 0⟩ = ⟨0, 1, 0⟩ := by
    rw [Vec3.normalize_eq_of 0.03 (by norm_num) (by norm_num [Vec3.normSq])]
    simp only [Vec3.smul_def, Vec3.mk.injEq]
    norm_num
  unfold CollisionSystem.sampleHit CollisionSystem.sampleCenter
  dsimp only
  rw [he, hsci]
  simp [hnorm3, he]

/-- The step-up ground probe above `stepBox` misses for five samples and then
returns the floor-like contact of sample 5 immediately:
`groundY = 2.2 + 0.1 = 2.3`. -/
theorem stepBox_ground_eval :
    CollisionSystem.checkGroundCollision [stepBox] ⟨2, 2 + 0.5, 0⟩ 0.1 (0.5 + 0.1)
      none = ⟨true, some 2.3, some ⟨0, 1, 0⟩, some stepBox.id⟩ := by
  have hmiss : ∀ (res : CollisionSystem.GroundResult) (i : ℕ), i ≤ 4 →
      CollisionSystem.groundSampleStep stepBox.obb stepBox.id ⟨2, 2 + 0.5, 0⟩
        ((0.5 + 0.1) / 10) 0.1 res i = .inl res := by
    intro res i hi
    unfold CollisionSystem.groundSampleStep
    rw [stepBox_sample_miss stepBox.id i hi]
  have hhit : ∀ res : CollisionSystem.GroundResult,
      CollisionSystem.groundSampleStep stepBox.obb stepBox.id ⟨2, 2 + 0.5, 0⟩
        ((0.5 + 0.1) / 10) 0.1 res 5 =
        .inr ⟨true, some ((2 + 0.5) - ((5 : ℕ) : ℝ) * ((0.5 + 0.1) / 10) + 0.1),
          some ⟨0, 1, 0⟩, some stepBox.id⟩ := by
    intro res
    unfold CollisionSystem.groundSampleStep
    rw [stepBox_sample_hit stepBox.id]
    dsimp only
    rw [if_pos (by norm_num : ((0 : ℝ), (2 : ℝ) + 0.5 - ((5 : ℕ) : ℝ) * ((0.5 + 0.1) / 10),
      (⟨0, 1, 0⟩ : Vec3)).2.2.y > 0.7)]
    rfl
  unfold CollisionSystem.checkGroundCollision
  dsimp only
  rw [CollisionSystem.foldlStop_cons,
    if_neg (by simp [stepBox] : ¬(((none : Option ℕ) == some stepBox.id) = true))]
  unfold CollisionSystem.scanObstacle
  rw [show List.range (10 + 1) = [0, 1, 2, 3, 4, 5, 6, 7, 8, 9, 10] from rfl]
  rw [CollisionSystem.foldlStop_cons, hmiss _ 0 (by norm_num)]
  dsimp only
  rw [CollisionSystem.foldlStop_cons, hmiss _ 1 (by norm_num)]
  dsimp only
  rw [CollisionSystem.foldlStop_cons, hmiss _ 2 (by norm_num)]
  dsimp only
  rw [CollisionSystem.foldlStop_cons, hmiss _ 3 (by norm_num)]
  dsimp only
  rw [CollisionSystem.foldlStop_cons, hmiss _ 4 (by norm_num)]
  dsimp only
  rw [CollisionSystem.foldlStop_cons, hhit _]
  dsimp only
  simp only [CollisionSystem.GroundResult.mk.injEq, Option.some.injEq]
  norm_num

/-- The raised step-up test position above `stepBox` is collision-free. -/
theorem stepBox_raised_free :
    CollisionSystem.checkCollision [stepBox] ⟨2, 2 + 0.5, 0⟩ 0.1 none = false := by
  have hclose := stepBox_probe (2 + 0.5) (by norm_num)
  have hnotint : ¬OrientedBoundingBox.intersectsSphere stepBox.obb ⟨2, 2 + 0.5, 0⟩ 0.1 := by
    unfold OrientedBoundingBox.intersectsSphere Vec3.distSq
    rw [hclose]
    have : Vec3.sub ⟨2, 2.12, 0⟩ ⟨2, 2 + 0.5, 0⟩ = ⟨0, -0.38, 0⟩ := by
      simp only [Vec3.sub, Vec3.mk.injEq]
      norm_num
    rw [this]
    norm_num [Vec3.normSq]
  unfold CollisionSystem.checkCollision
  simp only [List.any_cons, List.any_nil, Bool.or_false]
  have hbeq : ((none : Option ℕ) == some stepBox.id) = false := rfl
  simp [hbeq, hnotint]

/-- Witness for C7 at a delta exactly equal to the step height: standing at
height 2 with standing offset 0.2, the probe above `stepBox` reports
`groundY = 2.3`, so the delta is `2.3 + 0.2 - 2 = 0.5 = maxStepHeight`, and
the climb starts with target `(2, 2.5, 0)`. -/
theorem tryStepUp_inclusive_witness :
    Player.tryStepUp [stepBox] 0.1 0.5 0.2 true ⟨0, 2, 0⟩ ⟨2, 2, 0⟩ =
      some ⟨2, 2.5, 0⟩ := by
  have h := tryStepUp_inclusive [stepBox] 0.1 0.5 0.2 ⟨0, 2, 0⟩ ⟨2, 2, 0⟩ 2.3
    (by exact stepBox_raised_free)
    (by rw [stepBox_ground_eval])
    (by rw [stepBox_ground_eval])
    (by norm_num)
    (by norm_num)
  rw [h]
  norm_num

/-- The enemy fan candidates started at the origin with desired displacement
`(0.2, 0, 0)`, written in closed form. -/
theorem enemy_fanTestPos_eval (j : ℕ) :
    Enemy.fanTestPos ⟨0, 0, 0⟩ ⟨0.2, 0, 0⟩ j =
      ⟨0.2 * Real.cos (-(Real.pi / 2) + j * (Real.pi / 7)), 0,
        0.2 * Real.sin (-(Real.pi / 2) + j * (Real.pi / 7))⟩ := by
  unfold Enemy.fanTestPos Enemy.fanRotatedDir
  dsimp only
  have hnorm : Vec3.normalize ⟨0.2, 0, 0⟩ = ⟨1, 0, 0⟩ := by
    rw [Vec3.normalize_eq_of 0.2 (by norm_num) (by norm_num [Vec3.normSq])]
    simp only [Vec3.smul_def, Vec3.mk.injEq]
    norm_num
  have hlen : Vec3.len ⟨0.2, 0, 0⟩ = 0.2 :=
    Vec3.len_eq_of 0.2 (by norm_num) (by norm_num [Vec3.normSq])
  rw [hnorm, hlen]
  have hang : ((Enemy.angleCount : ℝ) - 1) = 7 := by
    norm_num [Enemy.angleCount]
  rw [hang]
  simp only [Vec3.add_def, Vec3.smul_def, Vec3.mk.injEq]
  refine ⟨by ring, by norm_num, by ring⟩

/-- The player fan angles lie in the closed quarter-turn interval. -/
theorem player_angle_mem (i : ℕ) (hi : i ≤ 15) :
    (-(Real.pi / 2) + i * (Real.pi / 15)) ∈
      Set.Icc (-(Real.pi / 2)) (Real.pi / 2) := by
  have hpi := Real.pi_pos
  have hiR : (i : ℝ) ≤ 15 := by exact_mod_cast hi
  have hiR0 : (0 : ℝ) ≤ (i : ℝ) := Nat.cast_nonneg i
  have h1 : (i : ℝ) * Real.pi ≤ 15 * Real.pi :=
    mul_le_mul_of_nonneg_right hiR hpi.le
  have h2 : (0 : ℝ) ≤ (i : ℝ) * Real.pi := mul_nonneg hiR0 hpi.le
  constructor <;> [nlinarith; nlinarith]

/-- The enemy fan angles lie in the closed quarter-turn interval. -/
theorem enemy_angle_mem (j : ℕ) (hj : j ≤ 7) :
    (-(Real.pi / 2) + j * (Real.pi / 7)) ∈
      Set.Icc (-(Real.pi / 2)) (Real.pi / 2) := by
  have hpi := Real.pi_pos
  have hjR : (j : ℝ) ≤ 7 := by exact_mod_cast hj
  have hjR0 : (0 : ℝ) ≤ (j : ℝ) := Nat.cast_nonneg j
  have h1 : (j : ℝ) * Real.pi ≤ 7 * Real.pi :=
    mul_le_mul_of_nonneg_right hjR hpi.le
  have h2 : (0 : ℝ) ≤ (j : ℝ) * Real.pi := mul_nonneg hjR0 hpi.le
  constructor <;> [nlinarith; nlinarith]

/-- Player fan candidates other than candidate 1 differ from `fanFreeSpot`. -/
theorem player_cand_ne (i : ℕ) (hi : i ≤ 15) (hne : i ≠ 1) :
    Player.fanTestPos ⟨0, 0, 0⟩ ⟨0.2, 0, 0⟩ 0.2 i ≠ fanFreeSpot := by
  rw [show fanFreeSpot = Player.fanTestPos ⟨0, 0, 0⟩ ⟨0.2, 0, 0⟩ 0.2 1 from rfl,
    player_fanTestPos_eval i, player_fanTestPos_eval 1]
  intro h
  have hz := congrArg Vec3.z h
  dsimp only at hz
  have hsin : Real.sin (-(Real.pi / 2) + i * (Real.pi / 15)) =
      Real.sin (-(Real.pi / 2) + (1 : ℕ) * (Real.pi / 15)) := by linarith
  have hang := Real.injOn_sin (player_angle_mem i hi) (player_angle_mem 1 (by norm_num)) hsin
  have hpi := Real.pi_pos
  have hiq : (i : ℝ) = 1 := by
    have h15 : (i : ℝ) * (Real.pi / 15) = (1 : ℕ) * (Real.pi / 15) := by linarith
    have hne15 : (Real.pi / 15) ≠ 0 := by positivity
    have := mul_right_cancel₀ hne15 h15
    simpa using this
  have : i = 1 := by exact_mod_cast hiq
  exact hne this

/-- No enemy fan candidate coincides with `fanFreeSpot`: the corresponding
angle equation `j * (pi / 7) = pi / 15` would force `15 * j = 7`. -/
theorem enemy_cand_ne (j : ℕ) (hj : j ≤ 7) :
    Enemy.fanTestPos ⟨0, 0, 0⟩ ⟨0.2, 0, 0⟩ j ≠ fanFreeSpot := by
  rw [show fanFreeSpot = Player.fanTestPos ⟨0, 0, 0⟩ ⟨0.2, 0, 0⟩ 0.2 1 from rfl,
    enemy_fanTestPos_eval j, player_fanTestPos_eval 1]
  intro h
  have hz := congrArg Vec3.z h
  dsimp only at hz
  have hsin : Real.sin (-(Real.pi / 2) + j * (Real.pi / 7)) =
      Real.sin (-(Real.pi / 2) + (1 : ℕ) * (Real.pi / 15)) := by linarith
  have hang := Real.injOn_sin (enemy_angle_mem j hj)
    (player_angle_mem 1 (by norm_num)) hsin
  have hpi := Real.pi_pos
  have heq : (j : ℝ) * (Real.pi / 7) = Real.pi / 15 := by
    have : ((1 : ℕ) : ℝ) * (Real.pi / 15) = Real.pi / 15 := by norm_num
    linarith [hang, this]
  have h157 : (15 : ℝ) * (j : ℝ) = 7 := by
    have hpin : Real.pi ≠ 0 := hpi.ne'
    field_simp at heq
    nlinarith [heq]
  have : (15 : ℕ) * j = 7 := by exact_mod_cast h157
  omega

/-- The player fan direction 1, in closed form. -/
theorem player_fanRotatedDir_eval (i : ℕ) :
    Player.fanRotatedDir ⟨0.2, 0, 0⟩ 0.2 i =
      ⟨0.2 * Real.cos (-(Real.pi / 2) + i * (Real.pi / 15)), 0,
        0.2 * Real.sin (-(Real.pi / 2) + i * (Real.pi / 15))⟩ := by
  unfold Player.fanRotatedDir
  dsimp only
  have hnorm : Vec3.normalize ⟨0.2, 0, 0⟩ = ⟨1, 0, 0⟩ := by
    rw [Vec3.normalize_eq_of 0.2 (by norm_num) (by norm_num [Vec3.normSq])]
    simp only [Vec3.smul_def, Vec3.mk.injEq]
    norm_num
  rw [hnorm]
  have hang : ((Player.angleCount : ℝ) - 1) = 15 := by
    norm_num [Player.angleCount]
  rw [hang]
  simp only [Vec3.smul_def, Vec3.mk.injEq]
  refine ⟨by ring, by norm_num, by ring⟩

/-- The cosine of fan angle 1 of the player is positive. -/
theorem cos_fan_angle_one_pos :
    0 < Real.cos (-(Real.pi / 2) + ((1 : ℕ) : ℝ) * (Real.pi / 15)) := by
  have hpi := Real.pi_pos
  apply Real.cos_pos_of_mem_Ioo
  constructor
  · simp only [Nat.cast_one, one_mul]
    nlinarith
  · simp only [Nat.cast_one, one_mul]
    nlinarith

/-- C3: the player-controlled resolver and the AI resolver are not one
shared implementation.  Their angular fans sample different numbers of
candidate directions (16 against 8), and under the same start position, the
same desired displacement `(0.2, 0, 0)` at the same speed 0.2 and the very
same collision field (free exactly at player fan candidate 1), the player
fan moves the actor to that candidate while the enemy fan finds all of its
8 candidates blocked and leaves the actor in place: the two resolvers return
different corrected positions on identical inputs. -/
theorem fan_search_divergence :
    Player.angleCount ≠ Enemy.angleCount ∧
    Player.findBestSlidingDirection ⟨0, 0, 0⟩ ⟨0.2, 0, 0⟩ 0.2 fanBlockCheck ≠
      Enemy.findBestSlidingDirection ⟨0, 0, 0⟩ ⟨0.2, 0, 0⟩ fanBlockCheck := by
  have hcos := cos_fan_angle_one_pos
  constructor
  · norm_num [Player.angleCount, Enemy.angleCount]
  · have hcheck1 : fanBlockCheck (Player.fanTestPos ⟨0, 0, 0⟩ ⟨0.2, 0, 0⟩ 0.2 1) = false := by
      unfold fanBlockCheck
      exact decide_eq_false (by simp [fanFreeSpot])
    have hlenrd : Vec3.len ⟨0.2 * Real.cos (-(Real.pi / 2) + ((1 : ℕ) : ℝ) * (Real.pi / 15)), 0,
        0.2 * Real.sin (-(Real.pi / 2) + ((1 : ℕ) : ℝ) * (Real.pi / 15))⟩ = 0.2 :=
      Vec3.len_eq_of 0.2 (by norm_num)
        (by
          simp only [Vec3.normSq]
          nlinarith [Real.sin_sq_add_cos_sq (-(Real.pi / 2) + ((1 : ℕ) : ℝ) * (Real.pi / 15))])
    have hlmv : Vec3.len ⟨0.2, 0, 0⟩ = 0.2 :=
      Vec3.len_eq_of 0.2 (by norm_num) (by norm_num [Vec3.normSq])
    have hdot : Vec3.dot ⟨0.2 * Real.cos (-(Real.pi / 2) + ((1 : ℕ) : ℝ) * (Real.pi / 15)), 0,
        0.2 * Real.sin (-(Real.pi / 2) + ((1 : ℕ) : ℝ) * (Real.pi / 15))⟩ ⟨0.2, 0, 0⟩ =
        0.04 * Real.cos (-(Real.pi / 2) + ((1 : ℕ) : ℝ) * (Real.pi / 15)) := by
      simp only [Vec3.dot]
      ring
    have hstep1 : Player.fanStep fanBlockCheck ⟨0, 0, 0⟩ ⟨0.2, 0, 0⟩ 0.2 (0, ⟨0, 0, 0⟩) 1 =
        (0.04 * Real.cos (-(Real.pi / 2) + ((1 : ℕ) : ℝ) * (Real.pi / 15)), fanFreeSpot) := by
      unfold Player.fanStep
      dsimp only
      rw [hcheck1, if_neg (by simp : ¬(false = true)), player_fanRotatedDir_eval 1,
        hdot, hlmv, hlenrd]
      rw [show (0.04 * Real.cos (-(Real.pi / 2) + ((1 : ℕ) : ℝ) * (Real.pi / 15)) / 0.2 : ℝ) =
        0.2 * Real.cos (-(Real.pi / 2) + ((1 : ℕ) : ℝ) * (Real.pi / 15)) by ring]
      rw [max_eq_right (by nlinarith :
        (0 : ℝ) ≤ 0.2 * Real.cos (-(Real.pi / 2) + ((1 : ℕ) : ℝ) * (Real.pi / 15)))]
      rw [if_pos (by nlinarith :
        (0.2 : ℝ) * (0.2 * Real.cos (-(Real.pi / 2) + ((1 : ℕ) : ℝ) * (Real.pi / 15))) > 0)]
      simp only [Prod.mk.injEq]
      exact ⟨by ring, rfl⟩
    have hfold : (List.range Player.angleCount).foldl
        (Player.fanStep fanBlockCheck ⟨0, 0, 0⟩ ⟨0.2, 0, 0⟩ 0.2) (0, ⟨0, 0, 0⟩) =
        (0.04 * Real.cos (-(Real.pi / 2) + ((1 : ℕ) : ℝ) * (Real.pi / 15)), fanFreeSpot) := by
      rw [show List.range Player.angleCount =
        [0] ++ [1] ++ [2, 3, 4, 5, 6, 7, 8, 9, 10, 11, 12, 13, 14, 15] from rfl]
      rw [List.foldl_append, List.foldl_append]
      rw [Player.fan_foldl_blocked fanBlockCheck ⟨0, 0, 0⟩ ⟨0.2, 0, 0⟩ 0.2 [0] _
        (by
          intro i hi
          rw [List.mem_singleton] at hi
          subst hi
          exact decide_eq_true (player_cand_ne 0 (by norm_num) (by norm_num)))]
      rw [show List.foldl (Player.fanStep fanBlockCheck ⟨0, 0, 0⟩ ⟨0.2, 0, 0⟩ 0.2)
        (0, ⟨0, 0, 0⟩) [1] =
        Player.fanStep fanBlockCheck ⟨0, 0, 0⟩ ⟨0.2, 0, 0⟩ 0.2 (0, ⟨0, 0, 0⟩) 1 from rfl]
      rw [hstep1]
      rw [Player.fan_foldl_blocked fanBlockCheck ⟨0, 0, 0⟩ ⟨0.2, 0, 0⟩ 0.2 _ _
        (by
          intro i hi
          fin_cases hi <;>
            exact decide_eq_true (player_cand_ne _ (by norm_num) (by norm_num)))]
    have hplayer : Player.findBestSlidingDirection ⟨0, 0, 0⟩ ⟨0.2, 0, 0⟩ 0.2 fanBlockCheck =
        ⟨fanFreeSpot.x, 0, fanFreeSpot.z⟩ := by
      unfold Player.findBestSlidingDirection
      rw [hfold]
      rw [if_pos (by nlinarith :
        ((0.04 * Real.cos (-(Real.pi / 2) + ((1 : ℕ) : ℝ) * (Real.pi / 15)), fanFreeSpot) :
          ℝ × Vec3).1 > 0)]
    have henemy : Enemy.findBestSlidingDirection ⟨0, 0, 0⟩ ⟨0.2, 0, 0⟩ fanBlockCheck =
        ⟨0, 0, 0⟩ := by
      unfold Enemy.findBestSlidingDirection
      rw [Enemy.enemy_fan_foldl_blocked fanBlockCheck ⟨0, 0, 0⟩ ⟨0.2, 0, 0⟩ _ _
        (by
          intro j hj
          have hj8 : j ≤ 7 := by
            have := List.mem_range.1 hj
            simp only [Enemy.angleCount] at this
            omega
          exact decide_eq_true (enemy_cand_ne j hj8))]
      rw [if_neg (by norm_num : ¬((0 : ℝ) > 0))]
    rw [hplayer, henemy]
    intro h
    have hx := congrArg Vec3.x h
    dsimp only at hx
    have hfsx : fanFreeSpot.x =
        0.2 * Real.cos (-(Real.pi / 2) + ((1 : ℕ) : ℝ) * (Real.pi / 15)) :=
      congrArg Vec3.x (player_fanTestPos_eval 1)
    rw [hfsx] at hx
    nlinarith
